import Mathlib

/-!
Verification of the CommonJS-to-goog.module rewrite pass (googmodule.ts).

The development shallowly embeds the statement shapes the pass inspects and
the pass itself: statement classification, the per-unit namespace binding
table, require deduplication, manifest registration events, prologue
synthesis, the transpilation-mode bypass, and the ".default" substitution
hook installed on the printer.

Machine strings are modelled as Lean String; identifier text is compared
exactly (escapedText and text coincide for every name the pass compares
against). NotEmittedStatement placeholders are modelled without their
wrapped original node, which only carries source positions. The calls
setOriginalNode and setTextRange only attach position and provenance
metadata and are not modelled structurally.
-/

namespace GoogModule

/-- Binary operator token kinds the pass distinguishes: the assignment
token, the logical-or token used in the module polyfill, and all others. -/
inductive BinOp where
  | eqToken
  | barBarToken
  | otherToken (kind : Nat)
deriving DecidableEq, Repr

mutual
/-- Expression shapes relevant to googmodule.ts. Constructors other than
`call` and `propAccess` model TS nodes that carry no `.expression` member
(identifiers, literals, binary expressions, object literals, and the
opaque rest). -/
inductive Expr where
  | ident (text : String)
  | strLit (text : String)
  | trueLit
  | call (callee : Expr) (args : List Expr)
  | propAccess (obj : Expr) (name : String)
  | binary (left : Expr) (op : BinOp) (right : Expr)
  | objectLit (props : List ObjProp)
  | otherExpr (tag : Nat)

/-- An object literal member: a property assignment with an identifier
name, or any other member kind (shorthand, spread, computed name, ...). -/
inductive ObjProp where
  | propAssign (name : String) (initializer : Expr)
  | otherProp (tag : Nat)
end

/-- A variable declarator name: a plain identifier or any other binding
pattern (destructuring etc.). -/
inductive BindingName where
  | identName (text : String)
  | otherPattern (tag : Nat)

/-- Top-level statement shapes. `notEmitted` models a NotEmittedStatement
placeholder. `otherStmt` covers every other statement kind, which the pass
copies through opaquely. `varStmt` carries the declarator list as pairs of
binding name and optional initializer. -/
inductive Stmt where
  | exprStmt (e : Expr)
  | varStmt (decls : List (BindingName × Option Expr))
  | notEmitted
  | otherStmt (tag : Nat)

/-- One source unit: its file name and its ordered top-level statements. -/
structure SourceFile where
  fileName : String
  statements : List Stmt

/-- The host capabilities consumed by the pass (GoogModuleProcessorHost).
resolveIndexShorthandFn stands for the resolveIndexShorthand helper, whose
result depends on the external TS module resolver and file system; the pass
only consumes its output specifier. Optional boolean host fields default to
false, matching JS undefined falsiness. -/
structure ProcessorHost where
  pathToModuleName : String → String → String
  fileNameToModuleId : String → String
  isJsTranspilation : Bool := false
  es5Mode : Bool := false
  convertIndexImportShorthand : Bool := false
  resolveIndexShorthandFn : String → String → String := fun _ imported => imported

/-- One call the pass makes into the external ModulesManifest. -/
inductive ManifestEvent where
  | addModule (fileName moduleName : String)
  | addReferencedModule (fileName moduleName : String)
deriving DecidableEq, Repr

/-- Per-unit rewrite state: the synthetic identifier counter and the map
from goog.require namespace to the variable name it was first assigned
into (namespaceToModuleVarName). The JS Map is modelled as an association
list; keys are inserted at most once, so lookup agrees with the Map. -/
structure RewriteState where
  moduleVarCounter : Nat
  namespaceToModuleVarName : List (String × String)

/-- State at entry of one unit: counter 1, empty binding table. -/
def initialRewriteState : RewriteState :=
  { moduleVarCounter := 1, namespaceToModuleVarName := [] }

/-- Lookup in the binding table (first matching key). -/
def lookupVar : List (String × String) → String → Option String
  | [], _ => none
  | (k, v) :: rest, ns => if k = ns then some v else lookupVar rest ns

/-- isPropertyAccess: node is an access of member `child` on the plain
identifier `parent`. -/
def isPropertyAccess (node : Expr) (parent child : String) : Bool :=
  match node with
  | .propAccess (.ident p) c => p = parent && c = child
  | _ => false

/-- isModuleExportsAssignment: the expression is "module.exports = ...". -/
def isModuleExportsAssignment (e : Expr) : Bool :=
  match e with
  | .binary left .eqToken _ => isPropertyAccess left "module" "exports"
  | _ => false

/-- isExportsAssignment: the expression is "exports = ...". -/
def isExportsAssignment (e : Expr) : Bool :=
  match e with
  | .binary (.ident t) .eqToken _ => t = "exports"
  | _ => false

/-- isUseStrict: statement is the string-literal pragma "use strict". -/
def isUseStrict (node : Stmt) : Bool :=
  match node with
  | .exprStmt (.strLit t) => t = "use strict"
  | _ => false

/-- isEsModuleProperty: the expression matches exactly
Object.defineProperty(exports, "__esModule", { value: true }). -/
def isEsModuleProperty (e : Expr) : Bool :=
  match e with
  | .call callee args =>
    isPropertyAccess callee "Object" "defineProperty" &&
    (match args with
     | [a1, a2, a3] =>
       (match a1 with | .ident t => t = "exports" | _ => false) &&
       (match a2 with | .strLit t => t = "__esModule" | _ => false) &&
       (match a3 with
        | .objectLit [p] =>
          (match p with
           | .propAssign n v =>
             n = "value" && (match v with | .trueLit => true | _ => false)
           | _ => false)
        | _ => false)
     | _ => false)
  | _ => false

/-- The JS member access `node.expression`: defined for call and property
access nodes, undefined (none) for the other modelled shapes. -/
def expressionField : Expr → Option Expr
  | .call c _ => some c
  | .propAccess o _ => some o
  | _ => none

/-- The JS member access `node.arguments`: defined only for call nodes. -/
def argumentsField : Expr → Option (List Expr)
  | .call _ a => some a
  | _ => none

/-- extractRequire: returns the string argument of a call of the shape
require("foo"), null (modelled some none) on a shape mismatch. The
function dereferences call.expression.kind and call.arguments.length
without checking that the members exist, so on a node without the needed
member it raises a TypeError, modelled as Except.error. -/
def extractRequire (call : Expr) : Except Unit (Option String) :=
  match expressionField call with
  | none => .error ()
  | some callee =>
    match callee with
    | .ident identText =>
      if identText = "require" then
        match argumentsField call with
        | none => .error ()
        | some args =>
          match args with
          | [arg] =>
            (match arg with
             | .strLit s => .ok (some s)
             | _ => .ok none)
          | _ => .ok none
      else .ok none
    | _ => .ok none

/-- createGoogCall: the expression goog.methodName(literal). -/
def createGoogCall (methodName : String) (literal : String) : Expr :=
  .call (.propAccess (.ident "goog") methodName) [.strLit literal]

/-- extractGoogNamespaceImport: the namespace part of a "goog:" import URL,
none when the URL does not carry the prefix. The anchored regex test and
the substring are modelled on the character list (the pattern is ASCII, so
character and code-unit indexing agree). -/
def extractGoogNamespaceImport (tsImport : String) : Option String :=
  if tsImport.toList.take 5 = "goog:".toList then
    some (String.mk (tsImport.toList.drop 5))
  else none

/-- importPathToGoogNamespace: converts an import specifier into the
goog.module namespace string (the text of the produced literal). -/
def importPathToGoogNamespace (host : ProcessorHost) (sf : SourceFile)
    (tsImport : String) : String :=
  match extractGoogNamespaceImport tsImport with
  | some nsImport => nsImport
  | none =>
    let imported :=
      if host.convertIndexImportShorthand then
        host.resolveIndexShorthandFn sf.fileName tsImport
      else tsImport
    host.pathToModuleName sf.fileName imported

/-- rewriteModuleExportsAssignment: replaces "module.exports = X" with
"exports = X", none when the statement expression has another shape. -/
def rewriteModuleExportsAssignment (e : Expr) : Option Stmt :=
  match e with
  | .binary left .eqToken right =>
    if isPropertyAccess left "module" "exports" then
      some (.exprStmt (.binary (.ident "exports") .eqToken right))
    else none
  | _ => none

/-- nextModuleVar: the synthetic name produced at counter value c. -/
def nextModuleVar (c : Nat) : String :=
  s!"tsickle_module_{c}_"

/-- maybeCreateGoogRequire: builds the variable statement binding newIdent
to a goog.require for the given CommonJS require call, or to the variable
already bound for the same namespace. Returns none when the call is not a
CommonJS require (including the empty-string specifier, which is falsy in
JS). Registers the referenced namespace with the manifest on every
successful extraction, before consulting the binding table. -/
def maybeCreateGoogRequire (host : ProcessorHost) (sf : SourceFile)
    (st : RewriteState) (call : Expr) (newIdent : String) :
    Except Unit (Option Stmt × RewriteState × List ManifestEvent) :=
  match extractRequire call with
  | .error e => .error e
  | .ok none => .ok (none, st, [])
  | .ok (some importedUrl) =>
    if importedUrl = "" then .ok (none, st, [])
    else
      let imp := importPathToGoogNamespace host sf importedUrl
      let evs := [ManifestEvent.addReferencedModule sf.fileName imp]
      match lookupVar st.namespaceToModuleVarName imp with
      | none =>
        .ok (some (.varStmt [(.identName newIdent,
                some (createGoogCall "require" imp))]),
          { st with namespaceToModuleVarName :=
              (imp, newIdent) :: st.namespaceToModuleVarName }, evs)
      | some boundIdent =>
        .ok (some (.varStmt [(.identName newIdent,
                some (.ident boundIdent))]), st, evs)

/-- maybeRewriteRequireTslib: rewrites the statement require("tslib") to
goog.require("tslib") and returns every other statement untouched. -/
def maybeRewriteRequireTslib (stmt : Stmt) : Stmt :=
  match stmt with
  | .exprStmt e =>
    (match e with
     | .call callee args =>
       (match callee with
        | .ident c =>
          if c = "require" then
            (match args with
             | [arg] =>
               (match arg with
                | .strLit a =>
                  if a = "tslib" then .exprStmt (createGoogCall "require" a)
                  else stmt
                | _ => stmt)
             | _ => stmt)
          else stmt
        | _ => stmt)
     | _ => stmt)
  | _ => stmt

/-- The argument list tail kept when re-invoking a star re-export
wrapper: its second argument (arguments[1]) when present, nothing
otherwise (a third or later argument is dropped). -/
def secondArg (args : List Expr) : List Expr :=
  match args with
  | _ :: second :: _ => [second]
  | _ => []

/-- The callee test for the star re-export wrappers: a plain identifier
named __exportStar or __export. -/
def isStarCallee (callee : Expr) : Bool :=
  match callee with
  | .ident t => t = "__exportStar" || t = "__export"
  | _ => false

/-- visitTopLevelStatement: classifies one top-level statement and returns
the list of statements appended for it (the source pushes them onto a
shared array), the updated per-unit state, and the manifest calls made.
Except.error models a JS TypeError escaping the visit. -/
def visitTopLevelStatement (host : ProcessorHost) (sf : SourceFile)
    (st : RewriteState) (node : Stmt) :
    Except Unit (List Stmt × RewriteState × List ManifestEvent) :=
  match node with
  | .exprStmt e =>
    if isUseStrict node || isEsModuleProperty e then
      .ok ([.notEmitted], st, [])
    else
      match rewriteModuleExportsAssignment e with
      | some modExports => .ok ([modExports], st, [])
      | none =>
        match e with
        | .call callee args =>
          let isExportStar := isStarCallee callee
          let identText := nextModuleVar st.moduleVarCounter
          let st1 := { st with moduleVarCounter := st.moduleVarCounter + 1 }
          match (if isExportStar then args.head? else some (.call callee args)) with
          | none => .error ()
          | some callExpr =>
            match maybeCreateGoogRequire host sf st1 callExpr identText with
            | .error er => .error er
            | .ok (none, st2, evs) => .ok ([node], st2, evs)
            | .ok (some required, st2, evs) =>
              if isExportStar then
                let args2 := Expr.ident identText :: secondArg args
                .ok ([required, .exprStmt (.call callee args2)], st2, evs)
              else .ok ([required], st2, evs)
        | _ => .ok ([node], st, [])
  | .varStmt decls =>
    match decls with
    | [(declName, declInit)] =>
      match declName with
      | .identName v =>
        match declInit with
        | some (.call c a) =>
          (match maybeCreateGoogRequire host sf st (.call c a) v with
           | .error er => .error er
           | .ok (none, st2, evs) => .ok ([node], st2, evs)
           | .ok (some required, st2, evs) => .ok ([required], st2, evs))
        | _ => .ok ([node], st, [])
      | _ => .ok ([node], st, [])
    | _ => .ok ([node], st, [])
  | _ => .ok ([node], st, [])

/-- Runs visitTopLevelStatement over the unit body, keeping the statements
appended for each input statement as one block (the source flattens them
into a single array; the driver below joins the blocks). Manifest calls
made before a TypeError are kept even when the visit aborts. -/
def visitAllBlocks (host : ProcessorHost) (sf : SourceFile) :
    List Stmt → RewriteState →
    Except Unit (List (List Stmt) × RewriteState) × List ManifestEvent
  | [], st => (.ok ([], st), [])
  | node :: rest, st =>
    match visitTopLevelStatement host sf st node with
    | .error e => (.error e, [])
    | .ok (blk, st1, evs) =>
      match visitAllBlocks host sf rest st1 with
      | (.error e, evs2) => (.error e, evs ++ evs2)
      | (.ok (blks, st2), evs2) => (.ok (blk :: blks, st2), evs ++ evs2)

/-- The synthesized header: goog.module call, module polyfill, and in
non-ES5 mode the module self-assignment plus, when the unit contains no
direct exports assignment, the default exports object. -/
def headerStmts (host : ProcessorHost) (sf : SourceFile) : List Stmt :=
  let moduleName := host.pathToModuleName "" sf.fileName
  let googModule := Stmt.exprStmt (createGoogCall "module" moduleName)
  let moduleId := host.fileNameToModuleId sf.fileName
  let modAssign := Stmt.varStmt [(.identName "module",
      some (.binary (.ident "module") .barBarToken
        (.objectLit [.propAssign "id" (.strLit moduleId)])))]
  let hasExportsAssignment := sf.statements.any fun s =>
    match s with
    | .exprStmt e => isModuleExportsAssignment e || isExportsAssignment e
    | _ => false
  [googModule, modAssign] ++
    (if !host.es5Mode then
      Stmt.exprStmt (.binary (.ident "module") .eqToken (.ident "module")) ::
        (if hasExportsAssignment then []
         else [Stmt.exprStmt (.binary (.ident "exports") .eqToken (.objectLit []))])
     else [])

/-- The whole per-unit transformer: registers the provided namespace, then
either applies only the tslib rewrite (transpilation mode) or rewrites the
body and splices the header after a leading placeholder. The first result
component is the output statement list (error models an escaping
TypeError); the second is the list of manifest calls, which are performed
even when the rewrite later aborts. -/
def commonJsToGoogmoduleTransformer (host : ProcessorHost) (sf : SourceFile) :
    Except Unit (List Stmt) × List ManifestEvent :=
  let moduleName := host.pathToModuleName "" sf.fileName
  let ev0 := [ManifestEvent.addModule sf.fileName moduleName]
  if host.isJsTranspilation then
    (.ok (sf.statements.map maybeRewriteRequireTslib), ev0)
  else
    match visitAllBlocks host sf sf.statements initialRewriteState with
    | (.error e, evs) => (.error e, ev0 ++ evs)
    | (.ok (blks, _), evs) =>
      let stmts := blks.flatten
      let insertionIdx : Nat :=
        match stmts with
        | .notEmitted :: _ => 1
        | _ => 0
      (.ok (stmts.take insertionIdx ++ headerStmts host sf ++
          stmts.drop insertionIdx), ev0 ++ evs)

/-- The node ts.getOriginalNode returns for an identifier: an import or
export declaration (carrying its module specifier text), or any other
node. A specifier-less export declaration never reaches the hook, so the
modelled declarations always carry their specifier. -/
inductive OriginalNode where
  | importDecl (moduleSpecifier : String)
  | exportDecl (moduleSpecifier : String)
  | otherNode

/-- What the type checker yields for an identifier in the fallback path of
the hook: no symbol, a symbol without declarations, a first declaration
whose grandparent is an import declaration (carrying that declaration's
module specifier), or a first declaration of any other shape. -/
inductive SymbolLookup where
  | noSymbol
  | noDeclarations
  | declImportGrandparent (moduleSpecifier : String)
  | declOther

/-- The provenance facts the substitution hook can observe about an
identifier, keyed by its text: the result of ts.getOriginalNode and the
result of the type checker symbol lookup. -/
structure SubstEnv where
  getOriginalNode : String → OriginalNode
  symbolLookup : String → SymbolLookup

/-- The import or export declaration the hook traces an identifier to,
as its module specifier: the original-node path first (accepting import
and export declarations), then the symbol path (accepting only a first
declaration whose grandparent is an import declaration). -/
def tracedSpecifier (env : SubstEnv) (lhs : String) : Option String :=
  match env.getOriginalNode lhs with
  | .importDecl s => some s
  | .exportDecl s => some s
  | .otherNode =>
    match env.symbolLookup lhs with
    | .declImportGrandparent s => some s
    | _ => none

/-- onSubstituteNode: the printing-time hook. Replaces ident.default by
ident when the identifier traces back (tracedSpecifier) to an import or
export declaration whose specifier is a truthy goog: namespace URL (the
extracted namespace is tested for JS truthiness, so the empty namespace
does not fire); otherwise returns the node unchanged. The previous hook in
the chain is the TS default, which returns its input. -/
def onSubstituteNode (env : SubstEnv) (node : Expr) : Expr :=
  match node with
  | .propAccess obj accessedName =>
    (match obj with
     | .ident lhs =>
       if accessedName = "default" then
         match tracedSpecifier env lhs with
         | none => node
         | some s =>
           match extractGoogNamespaceImport s with
           | some nsPart =>
             if nsPart = "" then node else .ident lhs
           | none => node
       else node
     | _ => node)
  | _ => node

/-! ## Characterizations used by the theorem statements -/

/-- The namespace maybeCreateGoogRequire resolves for a call expression
when it recognizes it as a CommonJS require, none when it rejects it or
raises. -/
def requireNamespace (host : ProcessorHost) (sf : SourceFile) (call : Expr) :
    Option String :=
  match extractRequire call with
  | .ok (some url) =>
    if url = "" then none else some (importPathToGoogNamespace host sf url)
  | _ => none

/-- The namespace a top-level statement imports, when the classification
recognizes it as an import occurrence: a side-effect require statement, a
star re-export wrapper around a require, or a single-declarator variable
statement initialized by a require. Mirrors the order of the checks in
visitTopLevelStatement. -/
def importNs (host : ProcessorHost) (sf : SourceFile) (node : Stmt) :
    Option String :=
  match node with
  | .exprStmt e =>
    if isUseStrict node || isEsModuleProperty e then none
    else if (rewriteModuleExportsAssignment e).isSome then none
    else
      match e with
      | .call callee args =>
        (match (if isStarCallee callee then args.head?
                else some (.call callee args)) with
         | none => none
         | some callExpr => requireNamespace host sf callExpr)
      | _ => none
  | .varStmt decls =>
    match decls with
    | [(declName, declInit)] =>
      (match declName with
       | .identName _ =>
         (match declInit with
          | some (.call c a) => requireNamespace host sf (.call c a)
          | _ => none)
       | _ => none)
    | _ => none
  | _ => none

/-- Index of the first statement importing the given namespace. -/
def firstImportIdx (host : ProcessorHost) (sf : SourceFile) (ns : String) :
    List Stmt → Option Nat
  | [] => none
  | s :: rest =>
    if importNs host sf s = some ns then some 0
    else (firstImportIdx host sf ns rest).map (· + 1)

/-- The statement shapes on which visitTopLevelStatement raises a
TypeError: a star re-export wrapper whose first argument is missing or is
an expression on which extractRequire dereferences a missing member. -/
def raisesTypeError (node : Stmt) : Bool :=
  match node with
  | .exprStmt e =>
    (match e with
     | .call callee args =>
       isStarCallee callee &&
       (match args.head? with
        | none => true
        | some a =>
          match extractRequire a with | .error _ => true | .ok _ => false)
     | _ => false)
  | _ => false

/-- An expression statement of the exact shape require("tslib"). -/
def isRequireTslib (stmt : Stmt) : Bool :=
  match stmt with
  | .exprStmt e =>
    (match e with
     | .call callee args =>
       (match callee with
        | .ident c =>
          c = "require" &&
          (match args with
           | [arg] => (match arg with | .strLit a => a = "tslib" | _ => false)
           | _ => false)
        | _ => false)
     | _ => false)
  | _ => false

/-- A star re-export wrapper statement that the pass recognizes as
a namespace import (and therefore splits into two output statements). -/
def isStarRequireStmt (host : ProcessorHost) (sf : SourceFile) (node : Stmt) :
    Bool :=
  match node with
  | .exprStmt e =>
    (match e with
     | .call callee _ => isStarCallee callee && (importNs host sf node).isSome
     | _ => false)
  | _ => false

/-- The traced specifier is a goog: namespace URL with a nonempty
namespace part: it begins with the prefix and is longer than it. -/
def tracedGoogNamespace (env : SubstEnv) (lhs : String) : Bool :=
  match tracedSpecifier env lhs with
  | some s => "goog:".toList.isPrefixOf s.toList && 5 < s.toList.length
  | none => false

/-- Number of leading placeholder statements of a statement list. -/
def leadingPlaceholders (stmts : List Stmt) : Nat :=
  match stmts with
  | .notEmitted :: rest => leadingPlaceholders rest + 1
  | _ => 0

/-- The initializer a require binding for namespace ns receives under
binding table m: the fresh goog.require call when the namespace is
unbound, the previously bound identifier otherwise. -/
def requireInitFor (m : List (String × String)) (ns : String) : Expr :=
  match lookupVar m ns with
  | none => createGoogCall "require" ns
  | some w => .ident w

/-- The binding table after a require of namespace ns binding v. -/
def requireMapAfter (m : List (String × String)) (ns v : String) :
    List (String × String) :=
  match lookupVar m ns with
  | none => (ns, v) :: m
  | some _ => m

/-- An event is a call to addModule (rather than addReferencedModule). -/
def isAddModuleEvent (ev : ManifestEvent) : Bool :=
  match ev with
  | .addModule _ _ => true
  | .addReferencedModule _ _ => false

/-- Statement-level form of isEsModuleProperty. -/
def isEsModulePropertyStmt (node : Stmt) : Bool :=
  match node with
  | .exprStmt e => isEsModuleProperty e
  | _ => false

/-- Statement-level test for the module.exports reassignment rewrite. -/
def isModuleExportsRewrite (node : Stmt) : Bool :=
  match node with
  | .exprStmt e => (rewriteModuleExportsAssignment e).isSome
  | _ => false

/-! ## Concrete units used by witnesses and counterexamples -/

/-- Host whose namespace for an import is the import specifier itself and
whose module id is the file name. -/
def witnessHost : ProcessorHost where
  pathToModuleName := fun _ p => p
  fileNameToModuleId := fun f => f

/-- witnessHost in ES5 emit mode. -/
def witnessHostEs5 : ProcessorHost where
  pathToModuleName := fun _ p => p
  fileNameToModuleId := fun f => f
  es5Mode := true

/-- witnessHost in JS transpilation mode. -/
def witnessHostJs : ProcessorHost where
  pathToModuleName := fun _ p => p
  fileNameToModuleId := fun f => f
  isJsTranspilation := true

/-- A unit importing "./a" twice: once for side effect, once into b. -/
def unitTwoImports : SourceFile where
  fileName := "f.ts"
  statements :=
    [.exprStmt (.call (.ident "require") [.strLit "./a"]),
     .varStmt [(.identName "b", some (.call (.ident "require") [.strLit "./a"]))]]

/-- A unit whose only statement is a star re-export wrapper with a plain
identifier as first argument (not a require call). -/
def unitBadStar : SourceFile where
  fileName := "g.ts"
  statements :=
    [.exprStmt (.call (.ident "__exportStar") [.ident "foo", .ident "exports"])]

/-- A unit starting with the strict pragma and the ES module marker, both
of which become placeholders, followed by an opaque statement. -/
def unitTwoPlaceholders : SourceFile where
  fileName := "h.ts"
  statements :=
    [.exprStmt (.strLit "use strict"),
     .exprStmt (.call (.propAccess (.ident "Object") "defineProperty")
       [.ident "exports", .strLit "__esModule",
        .objectLit [.propAssign "value" .trueLit]]),
     .otherStmt 0]

/-- A transpilation-mode unit with a tslib require among other statements. -/
def unitTslib : SourceFile where
  fileName := "t.js"
  statements :=
    [.exprStmt (.strLit "use strict"),
     .exprStmt (.call (.ident "require") [.strLit "tslib"]),
     .otherStmt 3]

/-- A unit with one star re-export of "./x". -/
def unitStar : SourceFile where
  fileName := "s.ts"
  statements :=
    [.exprStmt (.call (.ident "__exportStar")
      [.call (.ident "require") [.strLit "./x"], .ident "exports"])]

/-- The provenance environment in which every identifier originates from
an import declaration of the degenerate specifier "goog:". -/
def googColonEnv : SubstEnv where
  getOriginalNode := fun _ => .importDecl "goog:"
  symbolLookup := fun _ => .noSymbol

/-- The blocks the rewrite produces for unitTwoImports. -/
def unitTwoImportsBlocks : List (List Stmt) :=
  [[.varStmt [(.identName "tsickle_module_1_",
      some (createGoogCall "require" "./a"))]],
   [.varStmt [(.identName "b", some (.ident "tsickle_module_1_"))]]]

/-- The final rewrite state for unitTwoImports. -/
def unitTwoImportsState : RewriteState :=
  { moduleVarCounter := 2,
    namespaceToModuleVarName := [("./a", "tsickle_module_1_")] }

/-- The manifest calls the rewrite makes for unitTwoImports. -/
def unitTwoImportsEvents : List ManifestEvent :=
  [.addReferencedModule "f.ts" "./a", .addReferencedModule "f.ts" "./a"]

/-- The blocks the rewrite produces for unitTwoPlaceholders. -/
def unitTwoPlaceholdersBlocks : List (List Stmt) :=
  [[.notEmitted], [.notEmitted], [.otherStmt 0]]

/-! ## Behavior of maybeCreateGoogRequire -/

theorem maybeCreateGoogRequire_of_none (host : ProcessorHost)
    (sf : SourceFile) (st : RewriteState) (call : Expr) (v : String)
    (h : requireNamespace host sf call = none) :
    maybeCreateGoogRequire host sf st call v = .error () ∨
    maybeCreateGoogRequire host sf st call v = .ok (none, st, []) := by
  unfold requireNamespace at h
  unfold maybeCreateGoogRequire
  match hex : extractRequire call with
  | .error e => cases e; left; rfl
  | .ok none => right; rfl
  | .ok (some url) =>
    rw [hex] at h
    by_cases hurl : url = ""
    · right; simp [hurl]
    · simp [hurl] at h

theorem maybeCreateGoogRequire_of_some (host : ProcessorHost)
    (sf : SourceFile) (st : RewriteState) (call : Expr) (v ns : String)
    (h : requireNamespace host sf call = some ns) :
    maybeCreateGoogRequire host sf st call v =
      .ok (some (.varStmt [(.identName v,
            some (requireInitFor st.namespaceToModuleVarName ns))]),
        { st with namespaceToModuleVarName :=
            requireMapAfter st.namespaceToModuleVarName ns v },
        [.addReferencedModule sf.fileName ns]) := by
  unfold requireNamespace at h
  unfold maybeCreateGoogRequire
  match hex : extractRequire call with
  | .error e => rw [hex] at h; simp at h
  | .ok none => rw [hex] at h; simp at h
  | .ok (some url) =>
    rw [hex] at h
    by_cases hurl : url = ""
    · simp [hurl] at h
    · simp only [hurl, if_false, reduceIte, Option.some.injEq] at h
      subst h
      simp only [hurl, reduceIte]
      cases hlook : lookupVar st.namespaceToModuleVarName
          (importPathToGoogNamespace host sf url) with
      | none => simp [requireInitFor, requireMapAfter, hlook]
      | some w => simp [requireInitFor, requireMapAfter, hlook]

/-! ## Behavior of visitTopLevelStatement per classification -/

theorem visit_of_importNs_none (host : ProcessorHost) (sf : SourceFile)
    (st : RewriteState) (node : Stmt) (blk : List Stmt) (st2 : RewriteState)
    (evs : List ManifestEvent)
    (hns : importNs host sf node = none)
    (hok : visitTopLevelStatement host sf st node = .ok (blk, st2, evs)) :
    st2.namespaceToModuleVarName = st.namespaceToModuleVarName ∧ evs = [] := by
  cases node with
  | exprStmt e =>
    simp only [importNs] at hns
    simp only [visitTopLevelStatement] at hok
    by_cases hg : (isUseStrict (.exprStmt e) || isEsModuleProperty e) = true
    · rw [if_pos hg] at hok
      cases hok
      exact ⟨rfl, rfl⟩
    · rw [if_neg hg] at hok
      rw [if_neg hg] at hns
      cases hrw : rewriteModuleExportsAssignment e with
      | some m =>
        rw [hrw] at hok
        cases hok
        exact ⟨rfl, rfl⟩
      | none =>
        rw [hrw] at hok
        rw [hrw] at hns
        simp only [Option.isSome_none, Bool.false_eq_true, if_false] at hns
        cases e with
        | call callee args =>
          simp only at hok hns
          cases hh : (if isStarCallee callee then args.head?
            else some (.call callee args)) with
          | none =>
            rw [hh] at hok
            cases hok
          | some callExpr =>
            rw [hh] at hok hns
            simp only at hok hns
            rcases maybeCreateGoogRequire_of_none host sf
                { st with moduleVarCounter := st.moduleVarCounter + 1 }
                callExpr (nextModuleVar st.moduleVarCounter) hns with hmc | hmc
            · simp only [hmc] at hok
              cases hok
            · simp only [hmc] at hok
              cases hok
              exact ⟨rfl, rfl⟩
        | ident t => cases hok; exact ⟨rfl, rfl⟩
        | strLit t => cases hok; exact ⟨rfl, rfl⟩
        | trueLit => cases hok; exact ⟨rfl, rfl⟩
        | propAccess o n => cases hok; exact ⟨rfl, rfl⟩
        | binary l op r => cases hok; exact ⟨rfl, rfl⟩
        | objectLit props => cases hok; exact ⟨rfl, rfl⟩
        | otherExpr tag => cases hok; exact ⟨rfl, rfl⟩
  | varStmt decls =>
    simp only [importNs] at hns
    simp only [visitTopLevelStatement] at hok
    match decls with
    | [] => cases hok; exact ⟨rfl, rfl⟩
    | (declName, declInit) :: d2 :: drest => cases hok; exact ⟨rfl, rfl⟩
    | [(.otherPattern t, declInit)] => cases hok; exact ⟨rfl, rfl⟩
    | [(.identName v, none)] => cases hok; exact ⟨rfl, rfl⟩
    | [(.identName v, some declInit)] =>
      cases declInit with
      | call c a =>
        simp only at hok hns
        rcases maybeCreateGoogRequire_of_none host sf st (.call c a) v hns
            with hmc | hmc
        · simp only [hmc] at hok
          cases hok
        · simp only [hmc] at hok
          cases hok
          exact ⟨rfl, rfl⟩
      | ident t => cases hok; exact ⟨rfl, rfl⟩
      | strLit t => cases hok; exact ⟨rfl, rfl⟩
      | trueLit => cases hok; exact ⟨rfl, rfl⟩
      | propAccess o n => cases hok; exact ⟨rfl, rfl⟩
      | binary l op r => cases hok; exact ⟨rfl, rfl⟩
      | objectLit props => cases hok; exact ⟨rfl, rfl⟩
      | otherExpr tag => cases hok; exact ⟨rfl, rfl⟩
  | notEmitted =>
    cases hok
    exact ⟨rfl, rfl⟩
  | otherStmt t =>
    cases hok
    exact ⟨rfl, rfl⟩

theorem visit_of_importNs_some (host : ProcessorHost) (sf : SourceFile)
    (st : RewriteState) (node : Stmt) (ns : String) (blk : List Stmt)
    (st2 : RewriteState) (evs : List ManifestEvent)
    (hns : importNs host sf node = some ns)
    (hok : visitTopLevelStatement host sf st node = .ok (blk, st2, evs)) :
    evs = [.addReferencedModule sf.fileName ns] ∧
    ∃ v rest,
      blk = .varStmt [(.identName v,
          some (requireInitFor st.namespaceToModuleVarName ns))] :: rest ∧
      st2.namespaceToModuleVarName =
        requireMapAfter st.namespaceToModuleVarName ns v := by
  cases node with
  | exprStmt e =>
    simp only [importNs] at hns
    simp only [visitTopLevelStatement] at hok
    by_cases hg : (isUseStrict (.exprStmt e) || isEsModuleProperty e) = true
    · rw [if_pos hg] at hns
      cases hns
    · rw [if_neg hg] at hok
      rw [if_neg hg] at hns
      cases hrw : rewriteModuleExportsAssignment e with
      | some m =>
        rw [hrw] at hns
        simp [hrw] at hns
      | none =>
        rw [hrw] at hok
        rw [hrw] at hns
        simp only [Option.isSome_none, Bool.false_eq_true, if_false] at hns
        cases e with
        | call callee args =>
          simp only at hok hns
          cases hh : (if isStarCallee callee then args.head?
            else some (.call callee args)) with
          | none =>
            rw [hh] at hns
            cases hns
          | some callExpr =>
            rw [hh] at hok hns
            simp only at hok hns
            rw [maybeCreateGoogRequire_of_some host sf
                { st with moduleVarCounter := st.moduleVarCounter + 1 }
                callExpr (nextModuleVar st.moduleVarCounter) ns hns] at hok
            simp only at hok
            split at hok <;>
              (cases hok; exact ⟨rfl, nextModuleVar st.moduleVarCounter, _, rfl, rfl⟩)
        | ident t => cases hns
        | strLit t => cases hns
        | trueLit => cases hns
        | propAccess o n => cases hns
        | binary l op r => cases hns
        | objectLit props => cases hns
        | otherExpr tag => cases hns
  | varStmt decls =>
    simp only [importNs] at hns
    simp only [visitTopLevelStatement] at hok
    match decls with
    | [] => cases hns
    | (declName, declInit) :: d2 :: drest => cases hns
    | [(.otherPattern t, declInit)] => cases hns
    | [(.identName v, none)] => cases hns
    | [(.identName v, some declInit)] =>
      cases declInit with
      | call c a =>
        simp only at hok hns
        rw [maybeCreateGoogRequire_of_some host sf st (.call c a) v ns hns]
          at hok
        simp only at hok
        cases hok
        exact ⟨rfl, v, [], rfl, rfl⟩
      | ident t => cases hns
      | strLit t => cases hns
      | trueLit => cases hns
      | propAccess o n => cases hns
      | binary l op r => cases hns
      | objectLit props => cases hns
      | otherExpr tag => cases hns
  | notEmitted => cases hns
  | otherStmt t => cases hns

/-! ## Binding table lemmas -/

theorem lookupVar_cons (k v : String) (m : List (String × String))
    (ns : String) :
    lookupVar ((k, v) :: m) ns = if k = ns then some v else lookupVar m ns :=
  rfl

theorem lookupVar_requireMapAfter_ne (m : List (String × String))
    (ns' w ns : String) (h : ns' ≠ ns) :
    lookupVar (requireMapAfter m ns' w) ns = lookupVar m ns := by
  unfold requireMapAfter
  cases lookupVar m ns' with
  | none => simp [lookupVar_cons, h]
  | some u => rfl

theorem lookupVar_requireMapAfter_self (m : List (String × String))
    (ns v : String) (h : lookupVar m ns = none) :
    lookupVar (requireMapAfter m ns v) ns = some v := by
  unfold requireMapAfter
  rw [h]
  simp [lookupVar_cons]

theorem requireInitFor_of_none (m : List (String × String)) (ns : String)
    (h : lookupVar m ns = none) :
    requireInitFor m ns = createGoogCall "require" ns := by
  unfold requireInitFor
  rw [h]

theorem requireInitFor_of_some (m : List (String × String)) (ns v : String)
    (h : lookupVar m ns = some v) :
    requireInitFor m ns = .ident v := by
  unfold requireInitFor
  rw [h]

/-! ## Whole unit lemmas -/

theorem visitAllBlocks_length (host : ProcessorHost) (sf : SourceFile) :
    ∀ (stmts : List Stmt) (st : RewriteState) (blks : List (List Stmt))
      (stF : RewriteState) (evs : List ManifestEvent),
    visitAllBlocks host sf stmts st = (.ok (blks, stF), evs) →
    blks.length = stmts.length := by
  intro stmts
  induction stmts with
  | nil =>
    intro st blks stF evs h
    simp only [visitAllBlocks, Prod.mk.injEq, Except.ok.injEq] at h
    obtain ⟨⟨hb, _⟩, _⟩ := h
    subst hb
    rfl
  | cons s rest ih =>
    intro st blks stF evs h
    simp only [visitAllBlocks] at h
    cases hv : visitTopLevelStatement host sf st s with
    | error e => rw [hv] at h; simp at h
    | ok trip =>
      obtain ⟨blk, st1, evs1⟩ := trip
      rw [hv] at h
      simp only at h
      rcases hr : visitAllBlocks host sf rest st1 with ⟨r2, evs2⟩
      rw [hr] at h
      cases r2 with
      | error e => simp at h
      | ok p =>
        obtain ⟨blks2, stF2⟩ := p
        simp only [Prod.mk.injEq, Except.ok.injEq] at h
        obtain ⟨⟨hb, _⟩, _⟩ := h
        subst hb
        simp [ih st1 blks2 stF2 evs2 hr]

theorem visitAllBlocks_events (host : ProcessorHost) (sf : SourceFile) :
    ∀ (stmts : List Stmt) (st : RewriteState) (blks : List (List Stmt))
      (stF : RewriteState) (evs : List ManifestEvent),
    visitAllBlocks host sf stmts st = (.ok (blks, stF), evs) →
    evs = (stmts.filterMap (importNs host sf)).map
        (ManifestEvent.addReferencedModule sf.fileName) := by
  intro stmts
  induction stmts with
  | nil =>
    intro st blks stF evs h
    simp only [visitAllBlocks, Prod.mk.injEq] at h
    obtain ⟨_, he⟩ := h
    subst he
    rfl
  | cons s rest ih =>
    intro st blks stF evs h
    simp only [visitAllBlocks] at h
    cases hv : visitTopLevelStatement host sf st s with
    | error e => rw [hv] at h; simp at h
    | ok trip =>
      obtain ⟨blk, st1, evs1⟩ := trip
      rw [hv] at h
      simp only at h
      rcases hr : visitAllBlocks host sf rest st1 with ⟨r2, evs2⟩
      rw [hr] at h
      cases r2 with
      | error e => simp at h
      | ok p =>
        obtain ⟨blks2, stF2⟩ := p
        simp only [Prod.mk.injEq, Except.ok.injEq] at h
        obtain ⟨-, he⟩ := h
        subst he
        cases himp : importNs host sf s with
        | none =>
          obtain ⟨-, he1⟩ := visit_of_importNs_none host sf st s blk st1 evs1
            himp hv
          subst he1
          simp only [List.filterMap_cons, himp]
          exact ih st1 blks2 stF2 evs2 hr
        | some ns =>
          obtain ⟨he1, -⟩ := visit_of_importNs_some host sf st s ns blk st1
            evs1 himp hv
          subst he1
          simp only [List.filterMap_cons, himp, List.map_cons,
            List.singleton_append]
          rw [ih st1 blks2 stF2 evs2 hr]

theorem visitAllBlocks_reuse (host : ProcessorHost) (sf : SourceFile) :
    ∀ (stmts : List Stmt) (st : RewriteState) (blks : List (List Stmt))
      (stF : RewriteState) (evs : List ManifestEvent) (ns v : String),
    lookupVar st.namespaceToModuleVarName ns = some v →
    visitAllBlocks host sf stmts st = (.ok (blks, stF), evs) →
    lookupVar stF.namespaceToModuleVarName ns = some v ∧
    ∀ (j : Nat) (sj : Stmt), stmts[j]? = some sj → importNs host sf sj = some ns →
      ∃ w blkj restj, blks[j]? = some blkj ∧
        blkj = Stmt.varStmt [(.identName w, some (.ident v))] :: restj := by
  intro stmts
  induction stmts with
  | nil =>
    intro st blks stF evs ns v hlook h
    simp only [visitAllBlocks, Prod.mk.injEq, Except.ok.injEq] at h
    obtain ⟨⟨hb, hs⟩, -⟩ := h
    subst hb; subst hs
    refine ⟨hlook, ?_⟩
    intro j sj hj
    simp at hj
  | cons s rest ih =>
    intro st blks stF evs ns v hlook h
    simp only [visitAllBlocks] at h
    cases hv : visitTopLevelStatement host sf st s with
    | error e => rw [hv] at h; simp at h
    | ok trip =>
      obtain ⟨blk, st1, evs1⟩ := trip
      rw [hv] at h
      simp only at h
      rcases hr : visitAllBlocks host sf rest st1 with ⟨r2, evs2⟩
      rw [hr] at h
      cases r2 with
      | error e => simp at h
      | ok p =>
        obtain ⟨blks2, stF2⟩ := p
        simp only [Prod.mk.injEq, Except.ok.injEq] at h
        obtain ⟨⟨hb, hs⟩, -⟩ := h
        subst hb; subst hs
        cases himp : importNs host sf s with
        | none =>
          obtain ⟨hm, -⟩ := visit_of_importNs_none host sf st s blk st1 evs1
            himp hv
          have hlook1 : lookupVar st1.namespaceToModuleVarName ns = some v := by
            rw [hm]; exact hlook
          obtain ⟨hF, htail⟩ := ih st1 blks2 stF2 evs2 ns v hlook1 hr
          refine ⟨hF, ?_⟩
          intro j sj hj himpj
          cases j with
          | zero =>
            simp only [List.getElem?_cons_zero, Option.some.injEq] at hj
            subst hj
            rw [himpj] at himp
            cases himp
          | succ j' =>
            simp only [List.getElem?_cons_succ] at hj
            obtain ⟨w, blkj, restj, hbj, hshape⟩ := htail j' sj hj himpj
            exact ⟨w, blkj, restj, by simpa using hbj, hshape⟩
        | some ns' =>
          obtain ⟨-, w', rest', hblk, hm⟩ := visit_of_importNs_some host sf st
            s ns' blk st1 evs1 himp hv
          by_cases hns : ns' = ns
          · subst hns
            have hlook1 : lookupVar st1.namespaceToModuleVarName ns' = some v := by
              rw [hm]
              unfold requireMapAfter
              rw [hlook]
              exact hlook
            obtain ⟨hF, htail⟩ := ih st1 blks2 stF2 evs2 ns' v hlook1 hr
            refine ⟨hF, ?_⟩
            intro j sj hj himpj
            cases j with
            | zero =>
              refine ⟨w', blk, rest', by simp, ?_⟩
              rw [hblk, requireInitFor_of_some _ _ _ hlook]
            | succ j' =>
              simp only [List.getElem?_cons_succ] at hj
              obtain ⟨w, blkj, restj, hbj, hshape⟩ := htail j' sj hj himpj
              exact ⟨w, blkj, restj, by simpa using hbj, hshape⟩
          · have hlook1 : lookupVar st1.namespaceToModuleVarName ns = some v := by
              rw [hm, lookupVar_requireMapAfter_ne _ _ _ _ hns]
              exact hlook
            obtain ⟨hF, htail⟩ := ih st1 blks2 stF2 evs2 ns v hlook1 hr
            refine ⟨hF, ?_⟩
            intro j sj hj himpj
            cases j with
            | zero =>
              simp only [List.getElem?_cons_zero, Option.some.injEq] at hj
              subst hj
              rw [himpj] at himp
              cases himp
              exact absurd rfl hns
            | succ j' =>
              simp only [List.getElem?_cons_succ] at hj
              obtain ⟨w, blkj, restj, hbj, hshape⟩ := htail j' sj hj himpj
              exact ⟨w, blkj, restj, by simpa using hbj, hshape⟩

theorem visitAllBlocks_fresh (host : ProcessorHost) (sf : SourceFile) :
    ∀ (stmts : List Stmt) (st : RewriteState) (blks : List (List Stmt))
      (stF : RewriteState) (evs : List ManifestEvent) (ns : String) (i : Nat),
    lookupVar st.namespaceToModuleVarName ns = none →
    visitAllBlocks host sf stmts st = (.ok (blks, stF), evs) →
    firstImportIdx host sf ns stmts = some i →
    ∃ v blk restb, blks[i]? = some blk ∧
      blk = Stmt.varStmt [(.identName v,
          some (createGoogCall "require" ns))] :: restb ∧
      lookupVar stF.namespaceToModuleVarName ns = some v ∧
      ∀ (j : Nat) (sj : Stmt), i < j → stmts[j]? = some sj →
        importNs host sf sj = some ns →
        ∃ w blkj restj, blks[j]? = some blkj ∧
          blkj = Stmt.varStmt [(.identName w, some (.ident v))] :: restj := by
  intro stmts
  induction stmts with
  | nil =>
    intro st blks stF evs ns i hlook h hfi
    cases hfi
  | cons s rest ih =>
    intro st blks stF evs ns i hlook h hfi
    simp only [visitAllBlocks] at h
    cases hv : visitTopLevelStatement host sf st s with
    | error e => rw [hv] at h; simp at h
    | ok trip =>
      obtain ⟨blk, st1, evs1⟩ := trip
      rw [hv] at h
      simp only at h
      rcases hr : visitAllBlocks host sf rest st1 with ⟨r2, evs2⟩
      rw [hr] at h
      cases r2 with
      | error e => simp at h
      | ok p =>
        obtain ⟨blks2, stF2⟩ := p
        simp only [Prod.mk.injEq, Except.ok.injEq] at h
        obtain ⟨⟨hb, hs⟩, -⟩ := h
        subst hb; subst hs
        by_cases hfirst : importNs host sf s = some ns
        · simp only [firstImportIdx, if_pos hfirst, Option.some.injEq] at hfi
          subst hfi
          obtain ⟨-, v, rest', hblk, hm⟩ := visit_of_importNs_some host sf st
            s ns blk st1 evs1 hfirst hv
          have hlook1 : lookupVar st1.namespaceToModuleVarName ns = some v := by
            rw [hm]
            exact lookupVar_requireMapAfter_self _ _ _ hlook
          obtain ⟨hF, htail⟩ := visitAllBlocks_reuse host sf rest st1 blks2
            stF2 evs2 ns v hlook1 hr
          refine ⟨v, blk, rest', by simp, ?_, hF, ?_⟩
          · rw [hblk, requireInitFor_of_none _ _ hlook]
          · intro j sj hij hj himpj
            cases j with
            | zero => exact absurd hij (Nat.not_lt_zero 0)
            | succ j' =>
              simp only [List.getElem?_cons_succ] at hj
              obtain ⟨w, blkj, restj, hbj, hshape⟩ := htail j' sj hj himpj
              exact ⟨w, blkj, restj, by simpa using hbj, hshape⟩
        · simp only [firstImportIdx, if_neg hfirst] at hfi
          rw [Option.map_eq_some'] at hfi
          obtain ⟨i', hfi', hi⟩ := hfi
          subst hi
          have hlook1 : lookupVar st1.namespaceToModuleVarName ns = none := by
            cases himp : importNs host sf s with
            | none =>
              obtain ⟨hm, -⟩ := visit_of_importNs_none host sf st s blk st1
                evs1 himp hv
              rw [hm]; exact hlook
            | some ns' =>
              obtain ⟨-, w', rest', hblk, hm⟩ := visit_of_importNs_some host
                sf st s ns' blk st1 evs1 himp hv
              have hns : ns' ≠ ns := fun hcon => hfirst (hcon ▸ himp)
              rw [hm, lookupVar_requireMapAfter_ne _ _ _ _ hns]
              exact hlook
          obtain ⟨v, blkf, restb, hbf, hshape, hF, htail⟩ := ih st1 blks2
            stF2 evs2 ns i' hlook1 hr hfi'
          refine ⟨v, blkf, restb, by simpa using hbf, hshape, hF, ?_⟩
          intro j sj hij hj himpj
          cases j with
          | zero => exact absurd hij (Nat.not_lt_zero _)
          | succ j' =>
            simp only [List.getElem?_cons_succ] at hj
            obtain ⟨w, blkj, restj, hbj, hshapej⟩ := htail j' sj
              (Nat.lt_of_succ_lt_succ hij) hj himpj
            exact ⟨w, blkj, restj, by simpa using hbj, hshapej⟩

theorem requireNamespace_of_maybe_ok_none (host : ProcessorHost)
    (sf : SourceFile) (st st2 : RewriteState) (call : Expr) (v : String)
    (evs : List ManifestEvent)
    (h : maybeCreateGoogRequire host sf st call v = .ok (none, st2, evs)) :
    requireNamespace host sf call = none := by
  cases hrn : requireNamespace host sf call with
  | none => rfl
  | some ns =>
    rw [maybeCreateGoogRequire_of_some host sf st call v ns hrn] at h
    simp at h

theorem requireNamespace_of_maybe_ok_some (host : ProcessorHost)
    (sf : SourceFile) (st st2 : RewriteState) (call : Expr) (v : String)
    (req : Stmt) (evs : List ManifestEvent)
    (h : maybeCreateGoogRequire host sf st call v = .ok (some req, st2, evs)) :
    ∃ ns, requireNamespace host sf call = some ns := by
  cases hrn : requireNamespace host sf call with
  | some ns => exact ⟨ns, rfl⟩
  | none =>
    rcases maybeCreateGoogRequire_of_none host sf st call v hrn with hmc | hmc
    · rw [hmc] at h; cases h
    · rw [hmc] at h; cases h

/-- The tslib rewrite characterized by the isRequireTslib predicate. -/
theorem maybeRewriteRequireTslib_eq (s : Stmt) :
    maybeRewriteRequireTslib s =
      if isRequireTslib s then .exprStmt (createGoogCall "require" "tslib")
      else s := by
  cases s with
  | exprStmt e =>
    cases e with
    | call c a =>
      cases c with
      | ident t =>
        by_cases ht : t = "require"
        · subst ht
          match a with
          | [] => rfl
          | x :: y :: r => rfl
          | [x] =>
            cases x with
            | strLit lit =>
              by_cases hl : lit = "tslib"
              · subst hl
                simp [maybeRewriteRequireTslib, isRequireTslib]
              · simp [maybeRewriteRequireTslib, isRequireTslib, hl]
            | ident u => rfl
            | trueLit => rfl
            | call c2 a2 => rfl
            | propAccess o n => rfl
            | binary l op r => rfl
            | objectLit p => rfl
            | otherExpr g => rfl
        · simp [maybeRewriteRequireTslib, isRequireTslib, ht]
      | strLit u => rfl
      | trueLit => rfl
      | call c2 a2 => rfl
      | propAccess o n => rfl
      | binary l op r => rfl
      | objectLit p => rfl
      | otherExpr g => rfl
    | ident t => rfl
    | strLit t => rfl
    | trueLit => rfl
    | propAccess o n => rfl
    | binary l op r => rfl
    | objectLit p => rfl
    | otherExpr g => rfl
  | varStmt d => rfl
  | notEmitted => rfl
  | otherStmt t => rfl

/-- Every manifest call made while visiting statements is a
referenced-module registration, never a provided-module registration. -/
theorem visitAllBlocks_no_addModule (host : ProcessorHost)
    (sf : SourceFile) :
    ∀ (stmts : List Stmt) (st : RewriteState) (ev : ManifestEvent),
    ev ∈ (visitAllBlocks host sf stmts st).2 → isAddModuleEvent ev = false := by
  intro stmts
  induction stmts with
  | nil =>
    intro st ev hev
    simp [visitAllBlocks] at hev
  | cons s rest ih =>
    intro st ev hev
    simp only [visitAllBlocks] at hev
    cases hv : visitTopLevelStatement host sf st s with
    | error e => rw [hv] at hev; simp at hev
    | ok trip =>
      obtain ⟨blk, st1, evs1⟩ := trip
      rw [hv] at hev
      simp only at hev
      have hevs1 : ∀ ev2 ∈ evs1, isAddModuleEvent ev2 = false := by
        intro ev2 hev2
        cases himp : importNs host sf s with
        | none =>
          obtain ⟨-, he⟩ := visit_of_importNs_none host sf st s blk st1 evs1
            himp hv
          subst he
          simp at hev2
        | some ns =>
          obtain ⟨he, -⟩ := visit_of_importNs_some host sf st s ns blk st1
            evs1 himp hv
          subst he
          simp only [List.mem_singleton] at hev2
          subst hev2
          rfl
      rcases hr : visitAllBlocks host sf rest st1 with ⟨r2, evs2⟩
      rw [hr] at hev
      have hrec : ∀ ev2 ∈ evs2, isAddModuleEvent ev2 = false := by
        intro ev2 hev2
        exact ih st1 ev2 (by rw [hr]; exact hev2)
      cases r2 with
      | error e =>
        simp only [List.mem_append] at hev
        rcases hev with hev | hev
        · exact hevs1 ev hev
        · exact hrec ev hev
      | ok p =>
        simp only [List.mem_append] at hev
        rcases hev with hev | hev
        · exact hevs1 ev hev
        · exact hrec ev hev

/-! ## Claim theorems -/

/-- C6: rewriting the expression statement "module.exports = X;" produces
"exports = X;" with the right-hand side X carried over unaltered, while a
pre-existing bare "exports = X;" statement passes through to the output
unchanged (and in both cases the per-unit state and the manifest are
untouched). -/
theorem claim_C6_exports_assignment (host : ProcessorHost) (sf : SourceFile)
    (st : RewriteState) (X : Expr) :
    visitTopLevelStatement host sf st
        (.exprStmt (.binary (.propAccess (.ident "module") "exports")
          .eqToken X)) =
      .ok ([.exprStmt (.binary (.ident "exports") .eqToken X)], st, []) ∧
    visitTopLevelStatement host sf st
        (.exprStmt (.binary (.ident "exports") .eqToken X)) =
      .ok ([.exprStmt (.binary (.ident "exports") .eqToken X)], st, []) :=
  ⟨rfl, rfl⟩

/-- C9: with the transpilation-mode flag set, the output is the input with
each statement of the exact shape require("tslib") replaced by
goog.require("tslib") and every other statement unchanged in place; no
header is synthesized and the manifest only records the provided module. -/
theorem claim_C9_transpilation_mode (host : ProcessorHost) (sf : SourceFile)
    (hjs : host.isJsTranspilation = true) :
    (commonJsToGoogmoduleTransformer host sf).1 =
      .ok (sf.statements.map fun s =>
        if isRequireTslib s then .exprStmt (createGoogCall "require" "tslib")
        else s) ∧
    (commonJsToGoogmoduleTransformer host sf).2 =
      [.addModule sf.fileName (host.pathToModuleName "" sf.fileName)] := by
  have hfn : maybeRewriteRequireTslib = fun s =>
      if isRequireTslib s then
        Stmt.exprStmt (createGoogCall "require" "tslib")
      else s :=
    funext maybeRewriteRequireTslib_eq
  unfold commonJsToGoogmoduleTransformer
  rw [hjs]
  exact ⟨by rw [hfn]; rfl, rfl⟩

/-- Witness for C9 on a concrete three-statement transpilation unit. -/
theorem claim_C9_witness :
    witnessHostJs.isJsTranspilation = true ∧
    ((commonJsToGoogmoduleTransformer witnessHostJs unitTslib).1 =
      .ok (unitTslib.statements.map fun s =>
        if isRequireTslib s then .exprStmt (createGoogCall "require" "tslib")
        else s) ∧
    (commonJsToGoogmoduleTransformer witnessHostJs unitTslib).2 =
      [.addModule unitTslib.fileName
        (witnessHostJs.pathToModuleName "" unitTslib.fileName)]) :=
  ⟨rfl, claim_C9_transpilation_mode witnessHostJs unitTslib rfl⟩

/-- C10: in both modes the transformer registers the unit with the
manifest first, calling addModule with the file name and the namespace
pathToModuleName("", fileName) exactly once, before the transpilation-mode
check (so also when the statement pipeline is bypassed, and even when the
rewrite aborts). -/
theorem claim_C10_addModule_both_modes (host : ProcessorHost)
    (sf : SourceFile) :
    (commonJsToGoogmoduleTransformer host sf).2.head? =
      some (.addModule sf.fileName (host.pathToModuleName "" sf.fileName)) ∧
    (commonJsToGoogmoduleTransformer host sf).2.filter isAddModuleEvent =
      [.addModule sf.fileName (host.pathToModuleName "" sf.fileName)] := by
  unfold commonJsToGoogmoduleTransformer
  cases hjs : host.isJsTranspilation with
  | true => exact ⟨rfl, rfl⟩
  | false =>
    simp only [Bool.false_eq_true, if_false]
    have hrest : ∀ ev ∈ (visitAllBlocks host sf sf.statements
        initialRewriteState).2, isAddModuleEvent ev = false :=
      visitAllBlocks_no_addModule host sf sf.statements initialRewriteState
    rcases hv : visitAllBlocks host sf sf.statements initialRewriteState
      with ⟨r, evs⟩
    rw [hv] at hrest
    have hfilter : evs.filter isAddModuleEvent = [] :=
      List.filter_eq_nil_iff.mpr fun ev hev => by simp [hrest ev hev]
    cases r with
    | error e =>
      refine ⟨rfl, ?_⟩
      simp only [List.filter_cons, List.singleton_append, isAddModuleEvent,
        if_true, hfilter]
    | ok p =>
      refine ⟨rfl, ?_⟩
      simp only [List.filter_cons, List.singleton_append, isAddModuleEvent,
        if_true, hfilter]

/-- JS truthiness of the extracted goog: namespace, as a prefix-and-length
condition on the specifier. -/
theorem extractGoog_truthy (s : String) :
    (match extractGoogNamespaceImport s with
     | some nsPart => nsPart ≠ ""
     | none => False) ↔
    ("goog:".toList.isPrefixOf s.toList = true ∧ 5 < s.toList.length) := by
  have hmkne : ∀ l : List Char, String.mk l = "" ↔ l = [] := by
    intro l
    constructor
    · intro h
      have := congrArg String.data h
      simpa using this
    · intro h
      rw [h]
  unfold extractGoogNamespaceImport
  by_cases htake : s.toList.take 5 = "goog:".toList
  · rw [if_pos htake]
    simp only [ne_eq]
    constructor
    · intro h
      refine ⟨?_, ?_⟩
      · rw [List.isPrefixOf_iff_prefix, List.prefix_iff_eq_take]
        show "goog:".toList = s.toList.take 5
        rw [htake]
      · by_contra hle
        push_neg at hle
        exact h ((hmkne _).mpr (List.drop_eq_nil_iff.mpr hle))
    · rintro ⟨-, hl⟩ h
      have hnil := (hmkne _).mp h
      rw [List.drop_eq_nil_iff] at hnil
      omega
  · rw [if_neg htake]
    simp only [false_iff, not_and]
    intro hp
    exfalso
    apply htake
    rw [List.isPrefixOf_iff_prefix, List.prefix_iff_eq_take] at hp
    exact hp.symm

/-- The hook either returns its input unchanged or returns a bare
identifier. -/
theorem onSubstituteNode_fix_or_ident (env : SubstEnv) (node : Expr) :
    onSubstituteNode env node = node ∨
    ∃ lhs, onSubstituteNode env node = .ident lhs := by
  cases node with
  | propAccess obj accessedName =>
    cases obj with
    | ident lhs =>
      by_cases hname : accessedName = "default"
      · subst hname
        cases hspec : tracedSpecifier env lhs with
        | none => left; simp [onSubstituteNode, hspec]
        | some s =>
          cases hex : extractGoogNamespaceImport s with
          | none => left; simp [onSubstituteNode, hspec, hex]
          | some ns =>
            by_cases hne : ns = ""
            · left; simp [onSubstituteNode, hspec, hex, hne]
            · right
              exact ⟨lhs, by simp [onSubstituteNode, hspec, hex, hne]⟩
      · left; simp [onSubstituteNode, hname]
    | strLit t => left; rfl
    | trueLit => left; rfl
    | call c a => left; rfl
    | propAccess o n => left; rfl
    | binary l op r => left; rfl
    | objectLit p => left; rfl
    | otherExpr g => left; rfl
  | ident t => left; rfl
  | strLit t => left; rfl
  | trueLit => left; rfl
  | call c a => left; rfl
  | binary l op r => left; rfl
  | objectLit p => left; rfl
  | otherExpr g => left; rfl

/-- C7 (amended): the hook replaces ident.default by ident exactly when
the base is a plain identifier traceable (original node first, then
declaring symbol with an import-declaration grandparent) to a declaration
whose module specifier begins with "goog:" AND continues with a nonempty
namespace; every other node, including one traced to the bare specifier
"goog:", is returned unchanged. -/
theorem claim_C7_amended (env : SubstEnv) (node : Expr) :
    onSubstituteNode env node =
      match node with
      | .propAccess (.ident lhs) accessedName =>
        if accessedName = "default" ∧ tracedGoogNamespace env lhs then
          .ident lhs
        else node
      | _ => node := by
  cases node with
  | propAccess obj accessedName =>
    cases obj with
    | ident lhs =>
      simp only []
      by_cases hname : accessedName = "default"
      · subst hname
        simp only [true_and]
        unfold tracedGoogNamespace
        cases hspec : tracedSpecifier env lhs with
        | none => simp [onSubstituteNode, hspec]
        | some s =>
          simp only [hspec]
          by_cases hc : ("goog:".toList.isPrefixOf s.toList = true ∧
              5 < s.toList.length)
          · have htr := (extractGoog_truthy s).mpr hc
            have hcb : ("goog:".toList.isPrefixOf s.toList &&
                decide (5 < s.toList.length)) = true := by
              simp only [Bool.and_eq_true, decide_eq_true_eq]
              exact hc
            cases hex : extractGoogNamespaceImport s with
            | none => rw [hex] at htr; exact absurd htr (by simp)
            | some ns =>
              rw [hex] at htr
              simp only [onSubstituteNode, hspec, hex]
              rw [if_neg htr, if_pos hcb]
              simp
          · have hcb : ¬ (("goog:".toList.isPrefixOf s.toList &&
                decide (5 < s.toList.length)) = true) := by
              simp only [Bool.and_eq_true, decide_eq_true_eq]
              exact hc
            have hnottr := (extractGoog_truthy s).not.mpr (by exact hc)
            cases hex : extractGoogNamespaceImport s with
            | none =>
              simp only [onSubstituteNode, hspec, hex]
              rw [if_neg hcb]
              simp
            | some ns =>
              rw [hex] at hnottr
              simp only [ne_eq, not_not] at hnottr
              subst hnottr
              simp only [onSubstituteNode, hspec, hex]
              rw [if_neg hcb]
              simp
      · simp [onSubstituteNode, hname]
    | strLit t => rfl
    | trueLit => rfl
    | call c a => rfl
    | propAccess o n => rfl
    | binary l op r => rfl
    | objectLit p => rfl
    | otherExpr g => rfl
  | ident t => rfl
  | strLit t => rfl
  | trueLit => rfl
  | call c a => rfl
  | binary l op r => rfl
  | objectLit p => rfl
  | otherExpr g => rfl

/-- C8: the substitution hook is idempotent: applied to its own output it
returns that output unchanged. -/
theorem claim_C8_idempotent (env : SubstEnv) (node : Expr) :
    onSubstituteNode env (onSubstituteNode env node) =
      onSubstituteNode env node := by
  rcases onSubstituteNode_fix_or_ident env node with h | ⟨lhs, h⟩
  · rw [h]
    exact h
  · rw [h]
    rfl

/-- C7 counterexample: for an identifier traced to an import declaration
with module specifier exactly "goog:" - which does begin with the goog:
namespace-URL prefix - the hook leaves foo.default unchanged, because the
extracted namespace is the empty string, which is falsy in JS. -/
theorem claim_C7_counterexample :
    onSubstituteNode googColonEnv (.propAccess (.ident "foo") "default") =
      .propAccess (.ident "foo") "default" ∧
    tracedSpecifier googColonEnv "foo" = some "goog:" ∧
    "goog:".toList.isPrefixOf "goog:".toList = true :=
  ⟨rfl, rfl, rfl⟩


/-- C1: in the statement rewrite of a unit (the non-transpilation
pipeline), for every namespace ns imported at least once, the
first importing statement produces the unique binding initialized with the
constructed goog.require call for ns, the binder is recorded in the
per-unit binding table, and every later importing statement of ns instead
produces a variable declaration whose initializer is the identifier bound
at the first occurrence. -/
theorem claim_C1_require_dedup (host : ProcessorHost) (sf : SourceFile)
    (blks : List (List Stmt)) (stF : RewriteState)
    (evs : List ManifestEvent) (ns : String) (i : Nat)
    (hok : visitAllBlocks host sf sf.statements initialRewriteState =
      (.ok (blks, stF), evs))
    (hfirst : firstImportIdx host sf ns sf.statements = some i) :
    ∃ v blk restb, blks[i]? = some blk ∧
      blk = Stmt.varStmt [(.identName v,
          some (createGoogCall "require" ns))] :: restb ∧
      lookupVar stF.namespaceToModuleVarName ns = some v ∧
      ∀ (j : Nat) (sj : Stmt), i < j → sf.statements[j]? = some sj →
        importNs host sf sj = some ns →
        ∃ w blkj restj, blks[j]? = some blkj ∧
          blkj = Stmt.varStmt [(.identName w, some (.ident v))] :: restj :=
  visitAllBlocks_fresh host sf sf.statements initialRewriteState blks stF evs
    ns i rfl hok hfirst

/-- Witness for C1 on the concrete unit importing "./a" twice: the
first import binds tsickle_module_1_ to the goog.require call and the
second binds b to tsickle_module_1_. -/
theorem claim_C1_witness :
    ∃ v blk restb, unitTwoImportsBlocks[0]? = some blk ∧
      blk = Stmt.varStmt [(.identName v,
          some (createGoogCall "require" "./a"))] :: restb ∧
      lookupVar unitTwoImportsState.namespaceToModuleVarName "./a" = some v ∧
      ∀ (j : Nat) (sj : Stmt), 0 < j →
        unitTwoImports.statements[j]? = some sj →
        importNs witnessHost unitTwoImports sj = some "./a" →
        ∃ w blkj restj, unitTwoImportsBlocks[j]? = some blkj ∧
          blkj = Stmt.varStmt [(.identName w, some (.ident v))] :: restj :=
  claim_C1_require_dedup witnessHost unitTwoImports unitTwoImportsBlocks
    unitTwoImportsState unitTwoImportsEvents "./a" 0 rfl rfl

/-- C3 (amended): the header is spliced into the rewritten body after
min(k, 1) leading placeholders, where k is the number of leading
placeholders: a unit whose body starts with a placeholder gets the header
immediately after that first placeholder (which matches the claim when
k = 1, while for k >= 2 the remaining placeholders stay after the
header), and a unit with no leading placeholder gets it at the front. The
header itself starts with the provide statement followed by the module
identity polyfill. -/
theorem claim_C3_amended (host : ProcessorHost) (sf : SourceFile)
    (blks : List (List Stmt)) (stF : RewriteState)
    (evs : List ManifestEvent)
    (hjs : host.isJsTranspilation = false)
    (hok : visitAllBlocks host sf sf.statements initialRewriteState =
      (.ok (blks, stF), evs)) :
    (commonJsToGoogmoduleTransformer host sf).1 =
      .ok (blks.flatten.take (min (leadingPlaceholders blks.flatten) 1) ++
        headerStmts host sf ++
        blks.flatten.drop (min (leadingPlaceholders blks.flatten) 1)) ∧
    ∃ optional, headerStmts host sf =
      Stmt.exprStmt (createGoogCall "module"
        (host.pathToModuleName "" sf.fileName)) ::
      Stmt.varStmt [(.identName "module",
        some (.binary (.ident "module") .barBarToken
          (.objectLit [.propAssign "id"
            (.strLit (host.fileNameToModuleId sf.fileName))]))) ] ::
      optional := by
  refine ⟨?_, ⟨_, rfl⟩⟩
  unfold commonJsToGoogmoduleTransformer
  rw [hjs]
  simp only [Bool.false_eq_true, if_false]
  rw [hok]
  simp only
  cases hst : blks.flatten with
  | nil => simp [leadingPlaceholders]
  | cons hd tl =>
    cases hd with
    | notEmitted =>
      have hmin : ∀ k : Nat, min (k + 1) 1 = 1 := fun k => by omega
      simp [leadingPlaceholders, hmin]
    | exprStmt e => simp [leadingPlaceholders]
    | varStmt d => simp [leadingPlaceholders]
    | otherStmt t => simp [leadingPlaceholders]

/-- C3 counterexample: a unit whose rewritten body has two leading
placeholders (strict pragma and ES module marker). The body blocks are
three placeholders-and-code statements, yet the final output interleaves
the header after the first placeholder only, leaving the second
placeholder after the header, contradicting insertion after all leading
placeholders. -/
theorem claim_C3_counterexample :
    (visitAllBlocks witnessHostEs5 unitTwoPlaceholders
        unitTwoPlaceholders.statements initialRewriteState).1 =
      .ok (unitTwoPlaceholdersBlocks, initialRewriteState) ∧
    leadingPlaceholders unitTwoPlaceholdersBlocks.flatten = 2 ∧
    (commonJsToGoogmoduleTransformer witnessHostEs5 unitTwoPlaceholders).1 =
      .ok [Stmt.notEmitted,
        Stmt.exprStmt (createGoogCall "module" "h.ts"),
        Stmt.varStmt [(.identName "module",
          some (.binary (.ident "module") .barBarToken
            (.objectLit [.propAssign "id" (.strLit "h.ts")])))],
        Stmt.notEmitted, Stmt.otherStmt 0] :=
  ⟨rfl, rfl, rfl⟩

/-- Witness for the amended C3 on the two-placeholder unit. -/
theorem claim_C3_witness :
    (commonJsToGoogmoduleTransformer witnessHostEs5 unitTwoPlaceholders).1 =
      .ok (unitTwoPlaceholdersBlocks.flatten.take
          (min (leadingPlaceholders unitTwoPlaceholdersBlocks.flatten) 1) ++
        headerStmts witnessHostEs5 unitTwoPlaceholders ++
        unitTwoPlaceholdersBlocks.flatten.drop
          (min (leadingPlaceholders unitTwoPlaceholdersBlocks.flatten) 1)) ∧
    ∃ optional, headerStmts witnessHostEs5 unitTwoPlaceholders =
      Stmt.exprStmt (createGoogCall "module"
        (witnessHostEs5.pathToModuleName "" unitTwoPlaceholders.fileName)) ::
      Stmt.varStmt [(.identName "module",
        some (.binary (.ident "module") .barBarToken
          (.objectLit [.propAssign "id"
            (.strLit (witnessHostEs5.fileNameToModuleId
              unitTwoPlaceholders.fileName))]))) ] ::
      optional :=
  claim_C3_amended witnessHostEs5 unitTwoPlaceholders
    unitTwoPlaceholdersBlocks initialRewriteState [] rfl rfl

/-- C4 (amended): over one rewrite of a unit in non-transpilation mode the
manifest receives addModule exactly once, first, and addReferencedModule
once per import occurrence whose require extraction succeeds - so a
namespace imported N times is registered N times, not once. -/
theorem claim_C4_amended (host : ProcessorHost) (sf : SourceFile)
    (blks : List (List Stmt)) (stF : RewriteState)
    (evs : List ManifestEvent)
    (hjs : host.isJsTranspilation = false)
    (hok : visitAllBlocks host sf sf.statements initialRewriteState =
      (.ok (blks, stF), evs)) :
    (commonJsToGoogmoduleTransformer host sf).2 =
      .addModule sf.fileName (host.pathToModuleName "" sf.fileName) ::
      (sf.statements.filterMap (importNs host sf)).map
        (ManifestEvent.addReferencedModule sf.fileName) := by
  unfold commonJsToGoogmoduleTransformer
  rw [hjs]
  simp only [Bool.false_eq_true, if_false]
  rw [hok]
  simp only
  rw [visitAllBlocks_events host sf sf.statements initialRewriteState blks
    stF evs hok]
  rfl

/-- C4 counterexample: the unit importing "./a" twice makes the
addReferencedModule call twice for that one namespace, although the
rewritten output constructs its goog.require exactly once - the
registration is per occurrence, not per distinct emitted require. -/
theorem claim_C4_counterexample :
    (commonJsToGoogmoduleTransformer witnessHost unitTwoImports).2 =
      [.addModule "f.ts" "f.ts", .addReferencedModule "f.ts" "./a",
       .addReferencedModule "f.ts" "./a"] ∧
    (commonJsToGoogmoduleTransformer witnessHost unitTwoImports).2.count
      (.addReferencedModule "f.ts" "./a") = 2 ∧
    (commonJsToGoogmoduleTransformer witnessHost unitTwoImports).1 =
      .ok (headerStmts witnessHost unitTwoImports ++
        unitTwoImportsBlocks.flatten) :=
  ⟨rfl, rfl, rfl⟩

/-- Witness for the amended C4 on the unit importing "./a" twice. -/
theorem claim_C4_witness :
    (commonJsToGoogmoduleTransformer witnessHost unitTwoImports).2 =
      .addModule unitTwoImports.fileName
        (witnessHost.pathToModuleName "" unitTwoImports.fileName) ::
      (unitTwoImports.statements.filterMap
        (importNs witnessHost unitTwoImports)).map
        (ManifestEvent.addReferencedModule unitTwoImports.fileName) :=
  claim_C4_amended witnessHost unitTwoImports unitTwoImportsBlocks
    unitTwoImportsState unitTwoImportsEvents rfl rfl

/-- Reduction of the visit on a side-effect call statement that is neither
a placeholder nor an exports assignment. -/
theorem visit_call_eq (host : ProcessorHost) (sf : SourceFile)
    (st : RewriteState) (callee : Expr) (args : List Expr)
    (hg : ¬(isUseStrict (.exprStmt (.call callee args)) ||
      isEsModuleProperty (.call callee args)) = true)
    (hrw : rewriteModuleExportsAssignment (.call callee args) = none) :
    visitTopLevelStatement host sf st (.exprStmt (.call callee args)) =
      match (if isStarCallee callee then args.head?
             else some (.call callee args)) with
      | none => .error ()
      | some callExpr =>
        match maybeCreateGoogRequire host sf
            { st with moduleVarCounter := st.moduleVarCounter + 1 }
            callExpr (nextModuleVar st.moduleVarCounter) with
        | .error er => .error er
        | .ok (none, st2, evs) =>
          .ok ([.exprStmt (.call callee args)], st2, evs)
        | .ok (some required, st2, evs) =>
          if isStarCallee callee then
            .ok ([required, .exprStmt (.call callee
              (.ident (nextModuleVar st.moduleVarCounter) ::
                secondArg args))], st2, evs)
          else .ok ([required], st2, evs) := by
  simp only [visitTopLevelStatement]
  rw [if_neg hg, hrw]

/-- Reduction of the visit on a single-declarator variable statement with
a call initializer. -/
theorem visit_var_call_eq (host : ProcessorHost) (sf : SourceFile)
    (st : RewriteState) (v : String) (c : Expr) (a : List Expr) :
    visitTopLevelStatement host sf st
        (.varStmt [(.identName v, some (.call c a))]) =
      match maybeCreateGoogRequire host sf st (.call c a) v with
      | .error er => .error er
      | .ok (none, st2, evs) =>
        .ok ([.varStmt [(.identName v, some (.call c a))]], st2, evs)
      | .ok (some required, st2, evs) => .ok ([required], st2, evs) := rfl

/-- Reduction of importNs on the same call statement shape. -/
theorem importNs_call_eq (host : ProcessorHost) (sf : SourceFile)
    (callee : Expr) (args : List Expr)
    (hg : ¬(isUseStrict (.exprStmt (.call callee args)) ||
      isEsModuleProperty (.call callee args)) = true)
    (hrw : rewriteModuleExportsAssignment (.call callee args) = none) :
    importNs host sf (.exprStmt (.call callee args)) =
      match (if isStarCallee callee then args.head?
             else some (.call callee args)) with
      | none => none
      | some callExpr => requireNamespace host sf callExpr := by
  simp only [importNs]
  rw [if_neg hg, hrw]
  simp

/-- extractRequire never raises on a genuine call expression. -/
theorem extractRequire_call_ok (c : Expr) (a : List Expr) :
    ∃ r, extractRequire (.call c a) = .ok r := by
  cases c with
  | ident t =>
    by_cases ht : t = "require"
    · subst ht
      match a with
      | [] => exact ⟨_, rfl⟩
      | x :: y :: r => exact ⟨_, rfl⟩
      | [x] =>
        cases x with
        | strLit s2 => exact ⟨_, rfl⟩
        | ident u => exact ⟨_, rfl⟩
        | trueLit => exact ⟨_, rfl⟩
        | call c2 a2 => exact ⟨_, rfl⟩
        | propAccess o n => exact ⟨_, rfl⟩
        | binary l op r => exact ⟨_, rfl⟩
        | objectLit p => exact ⟨_, rfl⟩
        | otherExpr g => exact ⟨_, rfl⟩
    · refine ⟨none, ?_⟩
      simp [extractRequire, expressionField, ht]
  | strLit t => exact ⟨_, rfl⟩
  | trueLit => exact ⟨_, rfl⟩
  | call c2 a2 => exact ⟨_, rfl⟩
  | propAccess o n => exact ⟨_, rfl⟩
  | binary l op r => exact ⟨_, rfl⟩
  | objectLit p => exact ⟨_, rfl⟩
  | otherExpr g => exact ⟨_, rfl⟩

/-- maybeCreateGoogRequire raises exactly when extractRequire raises. -/
theorem maybeCreateGoogRequire_error_imp (host : ProcessorHost)
    (sf : SourceFile) (st : RewriteState) (call : Expr) (v : String)
    (e : Unit)
    (h : maybeCreateGoogRequire host sf st call v = .error e) :
    extractRequire call = .error e := by
  unfold maybeCreateGoogRequire at h
  cases hex : extractRequire call with
  | error e2 => cases e; cases e2; rfl
  | ok r =>
    rw [hex] at h
    cases r with
    | none => cases h
    | some url =>
      by_cases hurl : url = ""
      · simp only [hurl, reduceIte] at h
        cases h
      · simp only [hurl, Bool.false_eq_true, if_false, reduceIte] at h
        cases hlook : lookupVar st.namespaceToModuleVarName
            (importPathToGoogNamespace host sf url) with
        | none => rw [hlook] at h; cases h
        | some w => rw [hlook] at h; cases h

/-- The visit raises a TypeError only on the raisesTypeError shapes: a
star re-export wrapper whose first argument is missing or lacks the
members extractRequire dereferences. -/
theorem visit_error_imp (host : ProcessorHost) (sf : SourceFile)
    (st : RewriteState) (node : Stmt) (e : Unit)
    (hv : visitTopLevelStatement host sf st node = .error e) :
    raisesTypeError node = true := by
  cases node with
  | exprStmt e0 =>
    simp only [visitTopLevelStatement] at hv
    by_cases hg : (isUseStrict (.exprStmt e0) || isEsModuleProperty e0) = true
    · rw [if_pos hg] at hv
      cases hv
    · rw [if_neg hg] at hv
      cases hrw : rewriteModuleExportsAssignment e0 with
      | some m => rw [hrw] at hv; cases hv
      | none =>
        rw [hrw] at hv
        cases e0 with
        | call callee args =>
          simp only at hv
          by_cases hE : isStarCallee callee = true
          · simp only [hE, if_true] at hv
            cases hh : args.head? with
            | none =>
              simp only [raisesTypeError, hE, hh, Bool.true_and]
            | some a0 =>
              rw [hh] at hv
              split at hv
              · rename_i heq
                cases heq
              · rename_i callExpr2 heq
                injection heq with heq2
                subst heq2
                cases hmc : maybeCreateGoogRequire host sf
                    { st with moduleVarCounter := st.moduleVarCounter + 1 }
                    a0 (nextModuleVar st.moduleVarCounter) with
                | error e2 =>
                  have hexe := maybeCreateGoogRequire_error_imp host sf
                    { st with moduleVarCounter := st.moduleVarCounter + 1 }
                    a0 (nextModuleVar st.moduleVarCounter) e2 hmc
                  simp only [raisesTypeError, hE, hh, hexe, Bool.true_and]
                | ok trip =>
                  obtain ⟨req?, st2, evs2⟩ := trip
                  rw [hmc] at hv
                  cases req? with
                  | none => cases hv
                  | some req =>
                    simp only [hE, if_true] at hv
                    cases hv
          · simp only [Bool.not_eq_true] at hE
            simp only [hE, Bool.false_eq_true, if_false] at hv
            obtain ⟨r0, hex⟩ := extractRequire_call_ok callee args
            split at hv
            · rename_i er heq
              have hexe := maybeCreateGoogRequire_error_imp host sf
                { st with moduleVarCounter := st.moduleVarCounter + 1 }
                (.call callee args) (nextModuleVar st.moduleVarCounter) er
                heq
              rw [hexe] at hex
              cases hex
            · cases hv
            · cases hv
        | ident t => cases hv
        | strLit t => cases hv
        | trueLit => cases hv
        | propAccess o n => cases hv
        | binary l op r => cases hv
        | objectLit p => cases hv
        | otherExpr g => cases hv
  | varStmt decls =>
    simp only [visitTopLevelStatement] at hv
    match decls with
    | [] => cases hv
    | (d1, i1) :: d2 :: drest => cases hv
    | [(.otherPattern t, i1)] => cases hv
    | [(.identName v, none)] => cases hv
    | [(.identName v, some declInit)] =>
      cases declInit with
      | call c a =>
        simp only at hv
        obtain ⟨r0, hex⟩ := extractRequire_call_ok c a
        cases hmc : maybeCreateGoogRequire host sf st (.call c a) v with
        | error e2 =>
          have hexe := maybeCreateGoogRequire_error_imp host sf st
            (.call c a) v e2 hmc
          rw [hexe] at hex
          cases hex
        | ok trip =>
          obtain ⟨req?, st2, evs2⟩ := trip
          rw [hmc] at hv
          cases req? with
          | none => cases hv
          | some req => cases hv
      | ident t => cases hv
      | strLit t => cases hv
      | trueLit => cases hv
      | propAccess o n => cases hv
      | binary l op r => cases hv
      | objectLit p => cases hv
      | otherExpr g => cases hv
  | notEmitted => cases hv
  | otherStmt t => cases hv

/-- A statement recognized by no classifier is copied through unchanged
and makes no manifest call. -/
theorem visit_ok_pass_through (host : ProcessorHost) (sf : SourceFile)
    (st : RewriteState) (node : Stmt) (blk : List Stmt) (st2 : RewriteState)
    (evs : List ManifestEvent)
    (hns : importNs host sf node = none)
    (h1 : isUseStrict node = false)
    (h2 : isEsModulePropertyStmt node = false)
    (h3 : isModuleExportsRewrite node = false)
    (hok : visitTopLevelStatement host sf st node = .ok (blk, st2, evs)) :
    blk = [node] ∧ evs = [] := by
  cases node with
  | exprStmt e =>
    simp only [importNs] at hns
    simp only [visitTopLevelStatement] at hok
    simp only [isEsModulePropertyStmt] at h2
    have hg : ¬(isUseStrict (Stmt.exprStmt e) || isEsModuleProperty e) = true := by
      rw [h1, h2]
      simp
    rw [if_neg hg] at hok
    rw [if_neg hg] at hns
    cases hrw : rewriteModuleExportsAssignment e with
    | some m =>
      simp only [isModuleExportsRewrite, hrw, Option.isSome_some] at h3
      exact Bool.noConfusion h3
    | none =>
      rw [hrw] at hok
      rw [hrw] at hns
      simp only [Option.isSome_none, Bool.false_eq_true, if_false] at hns
      cases e with
      | call callee args =>
        simp only at hok hns
        cases hh : (if isStarCallee callee then args.head?
          else some (.call callee args)) with
        | none =>
          rw [hh] at hok
          cases hok
        | some callExpr =>
          rw [hh] at hok hns
          simp only at hok hns
          rcases maybeCreateGoogRequire_of_none host sf
              { st with moduleVarCounter := st.moduleVarCounter + 1 }
              callExpr (nextModuleVar st.moduleVarCounter) hns with hmc | hmc
          · simp only [hmc] at hok
            cases hok
          · simp only [hmc] at hok
            cases hok
            exact ⟨rfl, rfl⟩
      | ident t => cases hok; exact ⟨rfl, rfl⟩
      | strLit t => cases hok; exact ⟨rfl, rfl⟩
      | trueLit => cases hok; exact ⟨rfl, rfl⟩
      | propAccess o n => cases hok; exact ⟨rfl, rfl⟩
      | binary l op r => cases hok; exact ⟨rfl, rfl⟩
      | objectLit p => cases hok; exact ⟨rfl, rfl⟩
      | otherExpr tag => cases hok; exact ⟨rfl, rfl⟩
  | varStmt decls =>
    simp only [importNs] at hns
    simp only [visitTopLevelStatement] at hok
    match decls with
    | [] => cases hok; exact ⟨rfl, rfl⟩
    | (declName, declInit) :: d2 :: drest => cases hok; exact ⟨rfl, rfl⟩
    | [(.otherPattern t, declInit)] => cases hok; exact ⟨rfl, rfl⟩
    | [(.identName v, none)] => cases hok; exact ⟨rfl, rfl⟩
    | [(.identName v, some declInit)] =>
      cases declInit with
      | call c a =>
        simp only at hok hns
        rcases maybeCreateGoogRequire_of_none host sf st (.call c a) v hns
            with hmc | hmc
        · simp only [hmc] at hok
          cases hok
        · simp only [hmc] at hok
          cases hok
          exact ⟨rfl, rfl⟩
      | ident t => cases hok; exact ⟨rfl, rfl⟩
      | strLit t => cases hok; exact ⟨rfl, rfl⟩
      | trueLit => cases hok; exact ⟨rfl, rfl⟩
      | propAccess o n => cases hok; exact ⟨rfl, rfl⟩
      | binary l op r => cases hok; exact ⟨rfl, rfl⟩
      | objectLit p => cases hok; exact ⟨rfl, rfl⟩
      | otherExpr tag => cases hok; exact ⟨rfl, rfl⟩
  | notEmitted =>
    cases hok
    exact ⟨rfl, rfl⟩
  | otherStmt t =>
    cases hok
    exact ⟨rfl, rfl⟩

/-- C2 (amended): for every top-level statement except a star re-export
wrapper whose first argument is absent or lacks the members extractRequire
dereferences (raisesTypeError), the classification and rewrite pass raises
no exception; and every statement matching no classifier (no import, no
pragma, no ES-module marker, no module.exports assignment) is copied
unchanged into the output at its position with no manifest call. On the
raisesTypeError shapes the pass does raise a TypeError, so the original
claim fails. -/
theorem claim_C2_no_exception (host : ProcessorHost) (sf : SourceFile)
    (st : RewriteState) (node : Stmt)
    (hbad : raisesTypeError node = false) :
    (∃ r, visitTopLevelStatement host sf st node = .ok r) ∧
    (importNs host sf node = none → isUseStrict node = false →
     isEsModulePropertyStmt node = false →
     isModuleExportsRewrite node = false →
     ∃ st2, visitTopLevelStatement host sf st node = .ok ([node], st2, [])) := by
  constructor
  · cases hv : visitTopLevelStatement host sf st node with
    | error e =>
      rw [visit_error_imp host sf st node e hv] at hbad
      exact Bool.noConfusion hbad
    | ok r => exact ⟨r, rfl⟩
  · intro hns h1 h2 h3
    cases hv : visitTopLevelStatement host sf st node with
    | error e =>
      rw [visit_error_imp host sf st node e hv] at hbad
      exact Bool.noConfusion hbad
    | ok r =>
      obtain ⟨blk, st2, evs⟩ := r
      obtain ⟨hb, he⟩ := visit_ok_pass_through host sf st node blk st2 evs
        hns h1 h2 h3 hv
      subst hb
      subst he
      exact ⟨st2, rfl⟩


/-- C2 counterexample: a star re-export wrapper whose first argument is a
plain identifier makes the whole unit rewrite raise a TypeError
(extractRequire dereferences a missing member of the unchecked cast), so
the statement is not copied through unchanged and the no-exception claim
fails. -/
theorem claim_C2_counterexample :
    (commonJsToGoogmoduleTransformer witnessHost unitBadStar).1 = .error () ∧
    raisesTypeError (.exprStmt (.call (.ident "__exportStar")
      [.ident "foo", .ident "exports"])) = true :=
  ⟨rfl, rfl⟩

/-- Witness for the amended C2 on the unrecognized statement "a = b". -/
theorem claim_C2_witness :
    (∃ r, visitTopLevelStatement witnessHost unitBadStar initialRewriteState
      (.exprStmt (.binary (.ident "a") .eqToken (.ident "b"))) = .ok r) ∧
    (importNs witnessHost unitBadStar
        (.exprStmt (.binary (.ident "a") .eqToken (.ident "b"))) = none →
     isUseStrict (.exprStmt (.binary (.ident "a") .eqToken (.ident "b"))) =
       false →
     isEsModulePropertyStmt
        (.exprStmt (.binary (.ident "a") .eqToken (.ident "b"))) = false →
     isModuleExportsRewrite
        (.exprStmt (.binary (.ident "a") .eqToken (.ident "b"))) = false →
     ∃ st2, visitTopLevelStatement witnessHost unitBadStar
        initialRewriteState
        (.exprStmt (.binary (.ident "a") .eqToken (.ident "b"))) =
       .ok ([.exprStmt (.binary (.ident "a") .eqToken (.ident "b"))],
         st2, [])) :=
  claim_C2_no_exception witnessHost unitBadStar initialRewriteState
    (.exprStmt (.binary (.ident "a") .eqToken (.ident "b"))) rfl

/-- A statement that imports nothing is not a recognized star
re-export. -/
theorem isStarRequireStmt_false_of_importNs_none (host : ProcessorHost)
    (sf : SourceFile) (node : Stmt)
    (h : importNs host sf node = none) :
    isStarRequireStmt host sf node = false := by
  cases node with
  | exprStmt e =>
    cases e with
    | call callee args => simp [isStarRequireStmt, h]
    | ident t => rfl
    | strLit t => rfl
    | trueLit => rfl
    | propAccess o n => rfl
    | binary l op r => rfl
    | objectLit p => rfl
    | otherExpr g => rfl
  | varStmt d => rfl
  | notEmitted => rfl
  | otherStmt t => rfl

/-- A recognized star re-export is rewritten into the binding statement
followed by the re-invocation of the wrapper on the bound identifier. -/
theorem visit_star_split (host : ProcessorHost) (sf : SourceFile)
    (st : RewriteState) (starName : String) (inner : Expr)
    (rest2 : List Expr) (ns : String)
    (hstar : starName = "__exportStar" ∨ starName = "__export")
    (hns : requireNamespace host sf inner = some ns) :
    visitTopLevelStatement host sf st
        (.exprStmt (.call (.ident starName) (inner :: rest2))) =
      .ok ([.varStmt [(.identName (nextModuleVar st.moduleVarCounter),
            some (requireInitFor st.namespaceToModuleVarName ns))],
          .exprStmt (.call (.ident starName)
            (.ident (nextModuleVar st.moduleVarCounter) ::
              secondArg (inner :: rest2)))],
        { moduleVarCounter := st.moduleVarCounter + 1,
          namespaceToModuleVarName := requireMapAfter
            st.namespaceToModuleVarName ns
            (nextModuleVar st.moduleVarCounter) },
        [.addReferencedModule sf.fileName ns]) := by
  have hg : ¬(isUseStrict (.exprStmt (.call (.ident starName)
      (inner :: rest2))) ||
      isEsModuleProperty (.call (.ident starName) (inner :: rest2))) = true := by
    simp [isUseStrict, isEsModuleProperty, isPropertyAccess]
  have hrw : rewriteModuleExportsAssignment
      (.call (.ident starName) (inner :: rest2)) = none := rfl
  have hE : isStarCallee (.ident starName) = true := by
    rcases hstar with h | h <;> subst h <;> rfl
  rw [visit_call_eq host sf st (.ident starName) (inner :: rest2) hg hrw]
  simp only [hE, if_true, List.head?_cons]
  rw [maybeCreateGoogRequire_of_some host sf
    { st with moduleVarCounter := st.moduleVarCounter + 1 } inner
    (nextModuleVar st.moduleVarCounter) ns hns]

/-- Each visited statement contributes exactly one output statement,
except a recognized star re-export, which contributes exactly two. -/
theorem visit_block_length (host : ProcessorHost) (sf : SourceFile)
    (st : RewriteState) (node : Stmt) (blk : List Stmt)
    (st2 : RewriteState) (evs : List ManifestEvent)
    (hok : visitTopLevelStatement host sf st node = .ok (blk, st2, evs)) :
    blk.length = if isStarRequireStmt host sf node then 2 else 1 := by
  cases node with
  | exprStmt e =>
    by_cases hg : (isUseStrict (.exprStmt e) || isEsModuleProperty e) = true
    · have himp : importNs host sf (.exprStmt e) = none := by
        simp only [importNs, hg, if_true]
      rw [isStarRequireStmt_false_of_importNs_none host sf _ himp]
      simp only [visitTopLevelStatement, hg, if_true] at hok
      cases hok
      rfl
    · cases hrw : rewriteModuleExportsAssignment e with
      | some m =>
        have himp : importNs host sf (.exprStmt e) = none := by
          simp only [importNs, hrw]
          rw [if_neg hg]
          simp
        rw [isStarRequireStmt_false_of_importNs_none host sf _ himp]
        simp only [visitTopLevelStatement, hrw] at hok
        rw [if_neg hg] at hok
        cases hok
        rfl
      | none =>
        cases e with
        | call callee args =>
          rw [visit_call_eq host sf st callee args hg hrw] at hok
          have himpeq := importNs_call_eq host sf callee args hg hrw
          cases hh : (if isStarCallee callee then args.head?
            else some (.call callee args)) with
          | none =>
            rw [hh] at hok
            cases hok
          | some callExpr =>
            rw [hh] at hok himpeq
            simp only at hok himpeq
            cases hrn : requireNamespace host sf callExpr with
            | none =>
              rw [hrn] at himpeq
              rw [isStarRequireStmt_false_of_importNs_none host sf _ himpeq]
              rcases maybeCreateGoogRequire_of_none host sf
                  { st with moduleVarCounter := st.moduleVarCounter + 1 }
                  callExpr (nextModuleVar st.moduleVarCounter) hrn
                with hmc | hmc
              · simp only [hmc] at hok
                cases hok
              · simp only [hmc] at hok
                cases hok
                rfl
            | some ns =>
              rw [hrn] at himpeq
              rw [maybeCreateGoogRequire_of_some host sf
                { st with moduleVarCounter := st.moduleVarCounter + 1 }
                callExpr (nextModuleVar st.moduleVarCounter) ns hrn] at hok
              by_cases hE : isStarCallee callee = true
              · simp only [hE, if_true] at hok
                cases hok
                have hstar : isStarRequireStmt host sf
                    (.exprStmt (.call callee args)) = true := by
                  simp [isStarRequireStmt, hE, himpeq]
                rw [hstar]
                rfl
              · simp only [Bool.not_eq_true] at hE
                simp only [hE, Bool.false_eq_true, if_false] at hok
                cases hok
                have hstar : isStarRequireStmt host sf
                    (.exprStmt (.call callee args)) = false := by
                  simp [isStarRequireStmt, hE]
                rw [hstar]
                rfl
        | ident t =>
          simp only [visitTopLevelStatement, hrw] at hok
          rw [if_neg hg] at hok
          cases hok
          rfl
        | strLit t =>
          simp only [visitTopLevelStatement, hrw] at hok
          rw [if_neg hg] at hok
          cases hok
          rfl
        | trueLit =>
          simp only [visitTopLevelStatement, hrw] at hok
          rw [if_neg hg] at hok
          cases hok
          rfl
        | propAccess o n =>
          simp only [visitTopLevelStatement, hrw] at hok
          rw [if_neg hg] at hok
          cases hok
          rfl
        | binary l op r =>
          simp only [visitTopLevelStatement, hrw] at hok
          rw [if_neg hg] at hok
          cases hok
          rfl
        | objectLit p =>
          simp only [visitTopLevelStatement, hrw] at hok
          rw [if_neg hg] at hok
          cases hok
          rfl
        | otherExpr g =>
          simp only [visitTopLevelStatement, hrw] at hok
          rw [if_neg hg] at hok
          cases hok
          rfl
  | varStmt decls =>
    simp only [visitTopLevelStatement] at hok
    match decls with
    | [] => cases hok; rfl
    | (d1, i1) :: d2 :: drest => cases hok; rfl
    | [(.otherPattern t, i1)] => cases hok; rfl
    | [(.identName v, none)] => cases hok; rfl
    | [(.identName v, some declInit)] =>
      cases declInit with
      | call c a =>
        simp only at hok
        cases hrn : requireNamespace host sf (.call c a) with
        | none =>
          rcases maybeCreateGoogRequire_of_none host sf st (.call c a) v hrn
            with hmc | hmc
          · simp only [hmc] at hok
            cases hok
          · simp only [hmc] at hok
            cases hok
            rfl
        | some ns =>
          rw [maybeCreateGoogRequire_of_some host sf st (.call c a) v ns
            hrn] at hok
          cases hok
          rfl
      | ident t => cases hok; rfl
      | strLit t => cases hok; rfl
      | trueLit => cases hok; rfl
      | propAccess o n => cases hok; rfl
      | binary l op r => cases hok; rfl
      | objectLit p => cases hok; rfl
      | otherExpr g => cases hok; rfl
  | notEmitted => cases hok; rfl
  | otherStmt t => cases hok; rfl


/-- C5: a star re-export wrapper whose first argument is a recognized
require is rewritten into exactly two consecutive statements at its
position: first a variable declaration binding a fresh synthetic
identifier to the new or reused namespace require, then a re-invocation
of the original wrapper callee on that identifier, with the second
wrapper argument (when present) preserved; and every other visited
statement contributes exactly one output statement, so blocks of
non-split statements keep their relative order in the flattened output. -/
theorem claim_C5_star_reexport :
    (∀ (host : ProcessorHost) (sf : SourceFile) (st : RewriteState)
       (starName : String) (inner : Expr) (rest2 : List Expr) (ns : String),
     (starName = "__exportStar" ∨ starName = "__export") →
     requireNamespace host sf inner = some ns →
     visitTopLevelStatement host sf st
         (.exprStmt (.call (.ident starName) (inner :: rest2))) =
       .ok ([.varStmt [(.identName (nextModuleVar st.moduleVarCounter),
             some (requireInitFor st.namespaceToModuleVarName ns))],
           .exprStmt (.call (.ident starName)
             (.ident (nextModuleVar st.moduleVarCounter) ::
               secondArg (inner :: rest2)))],
         { moduleVarCounter := st.moduleVarCounter + 1,
           namespaceToModuleVarName := requireMapAfter
             st.namespaceToModuleVarName ns
             (nextModuleVar st.moduleVarCounter) },
         [.addReferencedModule sf.fileName ns])) ∧
    (∀ (host : ProcessorHost) (sf : SourceFile) (st : RewriteState)
       (node : Stmt) (blk : List Stmt) (st2 : RewriteState)
       (evs : List ManifestEvent),
     visitTopLevelStatement host sf st node = .ok (blk, st2, evs) →
     blk.length = if isStarRequireStmt host sf node then 2 else 1) :=
  ⟨visit_star_split, visit_block_length⟩

/-- Witness for C5 on the concrete unit with one star re-export of
"./x": the statement splits into the require binding and the wrapper
re-invocation, and its block has length two. -/
theorem claim_C5_witness :
    visitTopLevelStatement witnessHost unitStar initialRewriteState
        (.exprStmt (.call (.ident "__exportStar")
          ((.call (.ident "require") [.strLit "./x"]) :: [.ident "exports"]))) =
      .ok ([.varStmt [(.identName
            (nextModuleVar initialRewriteState.moduleVarCounter),
            some (requireInitFor
              initialRewriteState.namespaceToModuleVarName "./x"))],
          .exprStmt (.call (.ident "__exportStar")
            (.ident (nextModuleVar initialRewriteState.moduleVarCounter) ::
              secondArg ((.call (.ident "require") [.strLit "./x"]) ::
                [.ident "exports"])))],
        { moduleVarCounter := initialRewriteState.moduleVarCounter + 1,
          namespaceToModuleVarName := requireMapAfter
            initialRewriteState.namespaceToModuleVarName "./x"
            (nextModuleVar initialRewriteState.moduleVarCounter) },
        [.addReferencedModule unitStar.fileName "./x"]) ∧
    ([.varStmt [(.identName "tsickle_module_1_",
        some (createGoogCall "require" "./x"))],
      .exprStmt (.call (.ident "__exportStar")
        [.ident "tsickle_module_1_", .ident "exports"])] : List Stmt).length =
      (if isStarRequireStmt witnessHost unitStar
          (.exprStmt (.call (.ident "__exportStar")
            ((.call (.ident "require") [.strLit "./x"]) ::
              [.ident "exports"]))) then 2 else 1) :=
  ⟨claim_C5_star_reexport.1 witnessHost unitStar initialRewriteState
      "__exportStar" (.call (.ident "require") [.strLit "./x"])
      [.ident "exports"] "./x" (Or.inl rfl) rfl,
   claim_C5_star_reexport.2 witnessHost unitStar initialRewriteState
      (.exprStmt (.call (.ident "__exportStar")
        ((.call (.ident "require") [.strLit "./x"]) :: [.ident "exports"])))
      [.varStmt [(.identName "tsickle_module_1_",
          some (createGoogCall "require" "./x"))],
        .exprStmt (.call (.ident "__exportStar")
          [.ident "tsickle_module_1_", .ident "exports"])]
      { moduleVarCounter := 2,
        namespaceToModuleVarName := [("./x", "tsickle_module_1_")] }
      [.addReferencedModule "s.ts" "./x"] rfl⟩

end GoogModule
